import Mathlib

/-!
# ToyML: the batch optimiser of `main.cpp`

A shallow embedding of `SquareLoss`, `BatchOptimizer`, `GradientDescent`,
`batchGradientDescent` and of the loops of `runEpoch` / `runEpochs`.  The embedded code is
generic in the number type `K` and uses only the operations the C++ code applies to a
`float`.  The general theorems take `K` to be a linearly ordered field (exact arithmetic:
`ℚ` for evaluation, `ℝ` for the calculus facts); `F32` is a model of IEEE-754 binary32 on
which the same code is run where rounding, infinities and NaN matter.  An access outside a
`std::vector` or borrowed array has no defined behaviour in C++; the embedding returns
`none` there.
-/

namespace ToyML

/-! ## Loss family -/

/-- The template parameter `LossT`: a type with two static functions. -/
structure LossT (K : Type) where
  loss : K → K → K
  derivative : K → K → K

/-- The function `SquareLoss::loss` (main.cpp 11-15). -/
def SquareLoss.loss {K : Type} [Sub K] [Mul K] (yout yexpected : K) : K :=
  let x := yout - yexpected
  x * x

/-- The function `SquareLoss::derivative` (main.cpp 17-20). -/
def SquareLoss.derivative {K : Type} [OfNat K 2] [Sub K] [Mul K] (yout yexpected : K) : K :=
  2 * (yout - yexpected)

/-- The struct `SquareLoss` used as the template argument `LossT`. -/
def SquareLoss (K : Type) [OfNat K 2] [Sub K] [Mul K] : LossT K :=
  ⟨SquareLoss.loss, SquareLoss.derivative⟩

/-! ## The graph interface

`graph.h` is not among the sources; `main.cpp` only calls the members below.  The graph
is therefore a parameter: a state type `G` together with the operations the optimiser
uses. -/

/-- The members of `Graph` that `main.cpp` calls, over a graph state `G`.
`getDerivative g k i` is `g.paramNodes[k]->getDerivative(i)`, `getInput g k` is
`g.paramNodes[k]->getInput()` and `setInput g k v` is `g.paramNodes[k]->setInput(v)`. -/
structure Graph (K G : Type) where
  paramNodesSize : G → Nat
  setInputs : G → List K → G
  traverse : G → G
  getOutput : G → Nat → K
  backProp : G → Nat → K → G
  getDerivative : G → Nat → Nat → K
  getInput : G → Nat → K
  setInput : G → Nat → K → G

/-- Modelled from the spec: the contract of the `Graph` class, whose code (`graph.h`)
is missing.  The parameter list is fixed once registered, only `set_value` writes a
parameter value, and it writes the addressed parameter only. -/
structure Graph.Lawful {K G : Type} (ops : Graph K G) : Prop where
  size_setInputs : ∀ g x, ops.paramNodesSize (ops.setInputs g x) = ops.paramNodesSize g
  size_traverse : ∀ g, ops.paramNodesSize (ops.traverse g) = ops.paramNodesSize g
  size_backProp : ∀ g i s, ops.paramNodesSize (ops.backProp g i s) = ops.paramNodesSize g
  size_setInput : ∀ g k v, ops.paramNodesSize (ops.setInput g k v) = ops.paramNodesSize g
  getInput_setInputs : ∀ g x k, ops.getInput (ops.setInputs g x) k = ops.getInput g k
  getInput_traverse : ∀ g k, ops.getInput (ops.traverse g) k = ops.getInput g k
  getInput_backProp : ∀ g i s k, ops.getInput (ops.backProp g i s) k = ops.getInput g k
  getInput_setInput_same : ∀ g k v, k < ops.paramNodesSize g →
    ops.getInput (ops.setInput g k v) k = v
  getInput_setInput_other : ∀ g k k' v, k' ≠ k →
    ops.getInput (ops.setInput g k v) k' = ops.getInput g k'

/-! ## Optimiser state -/

/-- The data members of `BatchOptimizer` (main.cpp 87-96).  `graph` holds the state of
the graph the pointer refers to; `inputs` and `outputs` hold the borrowed arrays. -/
structure BatchOptimizer (K G : Type) where
  graph : G
  inputs : List (List K)
  outputs : List K
  setSize : Nat
  lastOverallError : K
  learningRate : K
  paramDerivs : List K
  nParams : Nat

/-- A `for (unsigned j = 0; j < n; ++j)` loop whose body may fail. -/
def forRange {σ : Type} (n : Nat) (body : Nat → σ → Option σ) (s : σ) : Option σ :=
  (List.range n).foldlM (fun acc j => body j acc) s

/-- The call `memset(v.data(), 0, sizeof(float)*n)`: zero the first `n` entries of `v`;
undefined when `v` holds fewer than `n` entries. -/
def memsetZero {K : Type} [Zero K] (v : List K) (n : Nat) : Option (List K) :=
  if n ≤ v.length then some (List.replicate n 0 ++ v.drop n) else none

/-- The call `std::vector::resize(n)` on a vector of floats (new entries are zero). -/
def resize {K : Type} [Zero K] (v : List K) (n : Nat) : List K :=
  v.take n ++ List.replicate (n - v.length) 0

namespace BatchOptimizer

variable {K G : Type}

/-- A newly constructed optimiser: `lastOverallError = 0`, `learningRate = 0.2`, an empty
`paramDerivs`.  The members without an initialiser are set by `setGraph` and
`setTrainingSet` before they are read; `g` stands for the graph `setGraph` will receive. -/
def fresh [Zero K] [OfNat K 2] [OfNat K 10] [Div K] (g : G) : BatchOptimizer K G :=
  { graph := g, inputs := [], outputs := [], setSize := 0,
    lastOverallError := 0, learningRate := 2 / 10, paramDerivs := [], nParams := 0 }

/-- The member `setGraph` (main.cpp 30-34). -/
def setGraph [Zero K] (ops : Graph K G) (s : BatchOptimizer K G) (g : G) :
    BatchOptimizer K G :=
  let s1 := { s with graph := g }
  let s2 := { s1 with nParams := ops.paramNodesSize s1.graph }
  { s2 with paramDerivs := resize s2.paramDerivs s2.nParams }

/-- The member `setTrainingSet` (main.cpp 36-41). -/
def setTrainingSet (s : BatchOptimizer K G) (inp : List (List K)) (out : List K) (n : Nat) :
    BatchOptimizer K G :=
  { s with inputs := inp, outputs := out, setSize := n }

/-- The member `setLearningRate` (main.cpp 83). -/
def setLearningRate (s : BatchOptimizer K G) (r : K) : BatchOptimizer K G :=
  { s with learningRate := r }

/-- The optimiser when the graph it points to is in state `g`: the optimiser holds a
pointer, so what the caller does to the graph is seen through it. -/
def withGraph (s : BatchOptimizer K G) (g : G) : BatchOptimizer K G :=
  { s with graph := g }

/-- The member `forwardPass` (main.cpp 45-50): the output and the state left behind. -/
def forwardPass (ops : Graph K G) (s : BatchOptimizer K G) (j : Nat) :
    Option (K × BatchOptimizer K G) :=
  match s.inputs[j]? with
  | none => none
  | some x =>
    let s1 := { s with graph := ops.setInputs s.graph x }
    let s2 := { s1 with graph := ops.traverse s1.graph }
    some (ops.getOutput s2.graph 0, s2)

/-- The statement `paramDerivs[k] += graph->paramNodes[k]->getDerivative(0)`
(main.cpp 70). -/
def addDeriv [Add K] (ops : Graph K G) (k : Nat) (s : BatchOptimizer K G) :
    Option (BatchOptimizer K G) :=
  if k < ops.paramNodesSize s.graph then
    match s.paramDerivs[k]? with
    | none => none
    | some d => some { s with paramDerivs := s.paramDerivs.set k (d + ops.getDerivative s.graph k 0) }
  else none

/-- The body of the loop over the training set (main.cpp 61-72); the second component
is the local `overallError`. -/
def exampleStep [Add K] (L : LossT K) (ops : Graph K G) (j : Nat)
    (st : BatchOptimizer K G × K) : Option (BatchOptimizer K G × K) :=
  match forwardPass ops st.1 j with
  | none => none
  | some (output, s1) =>
    match s1.outputs[j]? with
    | none => none
    | some y =>
      let overallError := st.2 + L.loss output y
      let baseDeriv := L.derivative output y
      let s2 := { s1 with graph := ops.backProp s1.graph 0 baseDeriv }
      match forRange s2.nParams (addDeriv ops) s2 with
      | none => none
      | some s3 => some (s3, overallError)

/-- The member `runEpoch` (main.cpp 54-81); `updateParams` is the member of the derived class that
`updateParamsInterface` calls. -/
def runEpoch [Zero K] [Add K] [Div K] [OfNat K 2] [LT K] [∀ a b : K, Decidable (a < b)]
    (updateParams : BatchOptimizer K G → Option (BatchOptimizer K G))
    (L : LossT K) (ops : Graph K G) (s : BatchOptimizer K G) : Option (BatchOptimizer K G) :=
  match memsetZero s.paramDerivs s.nParams with
  | none => none
  | some z =>
    let s0 := { s with paramDerivs := z }
    match forRange s0.setSize (exampleStep L ops) (s0, 0) with
    | none => none
    | some (s1, overallError) =>
      let s2 := if overallError > s1.lastOverallError then
        { s1 with learningRate := s1.learningRate / 2 } else s1
      let s3 := { s2 with lastOverallError := overallError }
      updateParams s3

/-- Whether `runEpoch` executes `learningRate /= 2`: the run of `runEpoch` up to the
comparison `overallError > lastOverallError` (main.cpp 56-74) and its outcome. -/
def halves [Zero K] [Add K] [LT K] [∀ a b : K, Decidable (a < b)] (L : LossT K)
    (ops : Graph K G) (s : BatchOptimizer K G) : Option Bool :=
  match memsetZero s.paramDerivs s.nParams with
  | none => none
  | some z =>
    let s0 := { s with paramDerivs := z }
    match forRange s0.setSize (exampleStep L ops) (s0, 0) with
    | none => none
    | some (s1, overallError) => some (decide (overallError > s1.lastOverallError))

end BatchOptimizer

namespace GradientDescent

variable {K G : Type}

/-- The body of the loop of `updateParams` (main.cpp 109-111). -/
def updateParam [Sub K] [Mul K] (ops : Graph K G) (k : Nat) (s : BatchOptimizer K G) :
    Option (BatchOptimizer K G) :=
  if k < ops.paramNodesSize s.graph then
    let w := ops.getInput s.graph k
    match s.paramDerivs[k]? with
    | none => none
    | some d => some { s with graph := ops.setInput s.graph k (w - s.learningRate * d) }
  else none

/-- The member `GradientDescent::updateParams` (main.cpp 103-113): the parameter count is
read once, before the loop. -/
def updateParams [Sub K] [Mul K] (ops : Graph K G) (s : BatchOptimizer K G) :
    Option (BatchOptimizer K G) :=
  let nParams := ops.paramNodesSize s.graph
  forRange nParams (updateParam ops) s

/-- The member `runEpoch` of a `GradientDescent<LossT>` optimiser. -/
def runEpoch [Zero K] [Add K] [Sub K] [Mul K] [Div K] [OfNat K 2] [LT K]
    [∀ a b : K, Decidable (a < b)] (L : LossT K) (ops : Graph K G) (s : BatchOptimizer K G) :
    Option (BatchOptimizer K G) :=
  BatchOptimizer.runEpoch (updateParams ops) L ops s

/-- The member `runEpochs` (main.cpp 43): `iterations` calls of `runEpoch`, one after the
other.  The argument is the value of the `unsigned` parameter; the `int` counter of the
loop is compared with it as an unsigned number, so the body runs `iterations` times. -/
def runEpochs [Zero K] [Add K] [Sub K] [Mul K] [Div K] [OfNat K 2] [LT K]
    [∀ a b : K, Decidable (a < b)] (L : LossT K) (ops : Graph K G) :
    Nat → BatchOptimizer K G → Option (BatchOptimizer K G)
  | 0, s => some s
  | n + 1, s => (runEpoch L ops s).bind (runEpochs L ops n)

end GradientDescent

/-! ## Closed forms of one epoch

The quantities the specification speaks about, written without the loop state. -/

section ClosedForms

variable {K G : Type} [LinearOrderedField K]

/-- The graph after `setInputs(x); traverse()`. -/
def forwardGraph (ops : Graph K G) (g : G) (x : List K) : G :=
  ops.traverse (ops.setInputs g x)

/-- The graph after the first `j` training examples of an epoch that starts in `g`:
each example does `setInputs(x_j); traverse(); backProp(0, LossT::derivative(o_j, y_j))`
with `o_j = getOutput(0)`. -/
def graphAfter (L : LossT K) (ops : Graph K G) (inp : List (List K)) (out : List K) (g : G) :
    Nat → G
  | 0 => g
  | j + 1 =>
    let g1 := forwardGraph ops (graphAfter L ops inp out g j) (inp.getD j [])
    ops.backProp g1 0 (L.derivative (ops.getOutput g1 0) (out.getD j 0))

/-- The output `o_j` read for example `j`. -/
def outputAt (L : LossT K) (ops : Graph K G) (inp : List (List K)) (out : List K) (g : G)
    (j : Nat) : K :=
  ops.getOutput (forwardGraph ops (graphAfter L ops inp out g j) (inp.getD j [])) 0

/-- The loss summed over the first `n` examples. -/
def epochLoss (L : LossT K) (ops : Graph K G) (inp : List (List K)) (out : List K) (g : G)
    (n : Nat) : K :=
  ∑ j in Finset.range n, L.loss (outputAt L ops inp out g j) (out.getD j 0)

/-- The derivative of parameter `k` summed over the first `n` examples. -/
def epochDeriv (L : LossT K) (ops : Graph K G) (inp : List (List K)) (out : List K) (g : G)
    (n k : Nat) : K :=
  ∑ j in Finset.range n, ops.getDerivative (graphAfter L ops inp out g (j + 1)) k 0

/-- The learning rate after the halving decision of `runEpoch` (main.cpp 74-75). -/
def nextRate (eta ePrev e : K) : K :=
  if e > ePrev then eta / 2 else eta

/-- The graph after the first `n` parameters have been rewritten with `w - eta * d k`. -/
def updatedGraph (ops : Graph K G) (eta : K) (d : Nat → K) (g : G) (n : Nat) : G :=
  (List.range n).foldl (fun g k => ops.setInput g k (ops.getInput g k - eta * d k)) g

/-- The state after one epoch of `GradientDescent`, in closed form. -/
def epochResult (L : LossT K) (ops : Graph K G) (s : BatchOptimizer K G) : BatchOptimizer K G :=
  let e := epochLoss L ops s.inputs s.outputs s.graph s.setSize
  let d := epochDeriv L ops s.inputs s.outputs s.graph s.setSize
  let eta := nextRate s.learningRate s.lastOverallError e
  { s with
    graph := (updatedGraph ops eta d
      (graphAfter L ops s.inputs s.outputs s.graph s.setSize) s.nParams)
    paramDerivs := (List.range s.nParams).map d
    learningRate := eta
    lastOverallError := e }

/-- The states on which no index of `runEpoch` leaves its container: the cached
parameter count is the graph's, `paramDerivs` has that size, and the borrowed arrays hold
`setSize` entries. -/
def WellFormed (ops : Graph K G) (s : BatchOptimizer K G) : Prop :=
  s.nParams = ops.paramNodesSize s.graph ∧ s.paramDerivs.length = s.nParams ∧
    s.setSize ≤ s.inputs.length ∧ s.setSize ≤ s.outputs.length

end ClosedForms

/-! ## Scenario A

The `Graph` class is not among the sources, so the one-parameter graph of the scenarios
is written from its description. -/

namespace ScenarioA

/-- The values held by the Scenario A graph: the weight `w`, the input node `x`, the
cached output `y` and the derivative slot `dw` of the weight. -/
structure State (K : Type) where
  w : K
  x : K
  y : K
  dw : K

/-- Modelled from the spec: the Scenario A graph (`graph.h` is missing).  One input node,
one parameter `w`, output `w·x`; `back_prop(0, s)` leaves `s·x` in the derivative slot
of `w`. -/
def graph {K : Type} [Zero K] [Mul K] : Graph K (State K) where
  paramNodesSize := fun _ => 1
  setInputs := fun g xs => match xs with
    | [v] => { g with x := v }
    | _ => g
  traverse := fun g => { g with y := g.w * g.x }
  getOutput := fun g _ => g.y
  backProp := fun g _ s => { g with dw := s * g.x }
  getDerivative := fun g k _ => if k = 0 then g.dw else 0
  getInput := fun g k => if k = 0 then g.w else 0
  setInput := fun g k v => if k = 0 then { g with w := v } else g

variable {K : Type} [LinearOrderedField K]

/-- The inputs of the training set `{(1,3),(2,6),(3,9)}`. -/
def inputs : List (List K) := [[1], [2], [3]]

/-- The expected outputs of the training set `{(1,3),(2,6),(3,9)}`. -/
def outputs : List K := [3, 6, 9]

/-- A new `GradientDescent<SquareLoss>` optimiser after `setGraph`, `setTrainingSet` and
`setLearningRate(eta0)`. -/
def start (eta0 : K) (g : State K) : BatchOptimizer K (State K) :=
  BatchOptimizer.setLearningRate
    (BatchOptimizer.setTrainingSet (BatchOptimizer.setGraph graph (BatchOptimizer.fresh g) g)
      inputs outputs 3) eta0

/-- A Scenario A graph whose weight is `w`, before any pass. -/
def initial (w : K) : State K := ⟨w, 0, 0, 0⟩

/-- The Scenario A optimiser with `w = 0` and `eta0 = 0.01`, over the rationals. -/
def demo : BatchOptimizer ℚ (State ℚ) := start (1 / 100) (initial 0)

/-- The optimiser is connected to the Scenario A graph and training set. -/
def Wired (s : BatchOptimizer K (State K)) : Prop :=
  s.inputs = inputs ∧ s.outputs = outputs ∧ s.setSize = 3 ∧ s.nParams = 1 ∧
    s.paramDerivs.length = 1

/-- A summary of a Scenario A optimiser used to follow a run: the weight error `w - 3` is
`c` times a reference error, the error one epoch earlier was `cPrev` times it, and `eta`
is the learning rate. -/
structure Coef (K : Type) where
  c : K
  cPrev : K
  eta : K

/-- The summary after one more epoch: the rate is halved when the loss `14 (c e)^2`
exceeds the stored `14 (cPrev e)^2`, and the error is multiplied by `1 - 28 eta`. -/
def Coef.step (p : Coef K) : Coef K :=
  let eta1 := if p.c ^ 2 > p.cPrev ^ 2 then p.eta / 2 else p.eta
  ⟨(1 - 28 * eta1) * p.c, p.c, eta1⟩

/-- The halvings counted along `n` steps of the summary. -/
def Coef.halvings : Nat → Coef K → Nat
  | 0, _ => 0
  | n + 1, p => (if (Coef.step p).eta = p.eta / 2 then 1 else 0) + Coef.halvings n (Coef.step p)

/-- The optimiser `s` is summarised by `p` with reference error `e0`. -/
def Tracks (s : BatchOptimizer K (State K)) (p : Coef K) (e0 : K) : Prop :=
  Wired s ∧ s.graph.w - 3 = p.c * e0 ∧ s.lastOverallError = 14 * (p.cPrev * e0) ^ 2 ∧
    s.learningRate = p.eta

/-- The states met when Scenario A is run from `eta0 = 0.01`: either nothing has been
stored yet (`E_prev = 0`, rate `0.01`), or the rate is `0.01` or `0.005` and the stored
loss is at least the loss of the current weight. -/
def Settling (s : BatchOptimizer K (State K)) : Prop :=
  (s.learningRate = 1 / 100 ∧ s.lastOverallError = 0) ∨
    ((s.learningRate = 1 / 100 ∨ s.learningRate = 1 / 200) ∧
      14 * (s.graph.w - 3) ^ 2 ≤ s.lastOverallError)

end ScenarioA

/-- The number of epochs, among the first `n` run from `s`, after which the learning rate
is half of what it was before the epoch. -/
def halvingCount {K G : Type} [LinearOrderedField K] (L : LossT K) (ops : Graph K G) :
    Nat → BatchOptimizer K G → Nat
  | 0, _ => 0
  | n + 1, s =>
    match GradientDescent.runEpoch L ops s with
    | none => 0
    | some s1 =>
      (if s1.learningRate = s.learningRate / 2 then 1 else 0) + halvingCount L ops n s1

/-- The number of epochs, among the first `n` run from `s`, whose loss (stored in
`lastOverallError` by the epoch) is greater than the loss stored before the epoch. -/
def lossRaises {K G : Type} [LinearOrderedField K] (L : LossT K) (ops : Graph K G) :
    Nat → BatchOptimizer K G → Nat
  | 0, _ => 0
  | n + 1, s =>
    match GradientDescent.runEpoch L ops s with
    | none => 0
    | some s1 =>
      (if s1.lastOverallError > s.lastOverallError then 1 else 0) + lossRaises L ops n s1

/-! ## The free function `batchGradientDescent` -/

/-- The local variables of `batchGradientDescent` (main.cpp 117-125) that change while it
runs, with the state of the graph it received by reference. -/
structure BatchGD (K G : Type) where
  graph : G
  paramUpdates : List K
  learningRate : K
  lastOverallError : K

namespace BatchGD

variable {K G : Type}

/-- The statement `paramUpdates[k] += graph.paramNodes[k]->getDerivative(0)`
(main.cpp 150). -/
def addUpdate [Add K] (ops : Graph K G) (k : Nat) (st : BatchGD K G) :
    Option (BatchGD K G) :=
  if k < ops.paramNodesSize st.graph then
    match st.paramUpdates[k]? with
    | none => none
    | some d =>
      some { st with paramUpdates := st.paramUpdates.set k (d + ops.getDerivative st.graph k 0) }
  else none

/-- The body of the loop over the examples (main.cpp 136-152); the second component is
the local `overallError`. -/
def exampleStep [Add K] (L : LossT K) (ops : Graph K G) (inputs : List (List K))
    (expectedOutputs : List K) (nParams : Nat) (j : Nat) (st : BatchGD K G × K) :
    Option (BatchGD K G × K) :=
  match inputs[j]? with
  | none => none
  | some x =>
    let s1 := { st.1 with graph := ops.setInputs st.1.graph x }
    let s2 := { s1 with graph := ops.traverse s1.graph }
    let output := ops.getOutput s2.graph 0
    match expectedOutputs[j]? with
    | none => none
    | some y =>
      let overallError := st.2 + L.loss output y
      let baseDeriv := L.derivative output y
      let s3 := { s2 with graph := ops.backProp s2.graph 0 baseDeriv }
      match forRange nParams (addUpdate ops) s3 with
      | none => none
      | some s4 => some (s4, overallError)

/-- The body of the update loop (main.cpp 165-167). -/
def updateParam [Sub K] [Mul K] (ops : Graph K G) (k : Nat) (st : BatchGD K G) :
    Option (BatchGD K G) :=
  if k < ops.paramNodesSize st.graph then
    let w := ops.getInput st.graph k
    match st.paramUpdates[k]? with
    | none => none
    | some d => some { st with graph := ops.setInput st.graph k (w - st.learningRate * d) }
  else none

/-- The body of the loop over `i` (main.cpp 129-169). -/
def iteration [Zero K] [Add K] [Sub K] [Mul K] [Div K] [OfNat K 2] [LT K]
    [∀ a b : K, Decidable (a < b)] (L : LossT K) (ops : Graph K G) (inputs : List (List K))
    (expectedOutputs : List K) (nParams n : Nat) (st : BatchGD K G) : Option (BatchGD K G) :=
  match memsetZero st.paramUpdates nParams with
  | none => none
  | some z =>
    match forRange n (exampleStep L ops inputs expectedOutputs nParams)
        ({ st with paramUpdates := z }, 0) with
    | none => none
    | some (s1, overallError) =>
      let s2 := if overallError > s1.lastOverallError then
        { s1 with learningRate := s1.learningRate / 2 } else s1
      let s3 := { s2 with lastOverallError := overallError }
      forRange nParams (updateParam ops) s3

/-- The locals before the first iteration (main.cpp 119-125): `learningRate = 0.1*2` and
`lastOverallError = 0`.  The array `paramUpdates` has `nParams` entries, not initialised in
C++ and zeroed by the `memset` of every iteration before they are read. -/
def initial [Zero K] [OfNat K 1] [OfNat K 2] [OfNat K 10] [Mul K] [Div K] (ops : Graph K G)
    (graph : G) : BatchGD K G :=
  { graph := graph, paramUpdates := List.replicate (ops.paramNodesSize graph) 0,
    learningRate := 1 / 10 * 2, lastOverallError := 0 }

end BatchGD

/-- The free function `batchGradientDescent` (main.cpp 116-172): the graph it leaves. -/
def batchGradientDescent {K G : Type} [Zero K] [OfNat K 1] [OfNat K 2] [OfNat K 10] [Add K]
    [Sub K] [Mul K] [Div K] [LT K] [∀ a b : K, Decidable (a < b)] (L : LossT K) (ops : Graph K G)
    (graph : G) (inputs : List (List K)) (expectedOutputs : List K) (iterations : Nat) :
    Option G :=
  let nParams := ops.paramNodesSize graph
  let n := expectedOutputs.length
  (forRange iterations (fun _ => BatchGD.iteration L ops inputs expectedOutputs nParams n)
    (BatchGD.initial ops graph)).map (fun st => st.graph)

/-- The locals of `batchGradientDescent` that correspond to an optimiser state. -/
def BatchOptimizer.toBatchGD {K G : Type} (s : BatchOptimizer K G) : BatchGD K G :=
  { graph := s.graph, paramUpdates := s.paramDerivs, learningRate := s.learningRate,
    lastOverallError := s.lastOverallError }

/-- The optimiser `s` works on the arrays `inp`, `out` with `setSize = n`, and both its
cached parameter count and the graph's parameter count are `p`. -/
def BatchOptimizer.Attached {K G : Type} (ops : Graph K G) (inp : List (List K)) (out : List K)
    (p n : Nat) (s : BatchOptimizer K G) : Prop :=
  s.inputs = inp ∧ s.outputs = out ∧ s.setSize = n ∧ s.nParams = p ∧
    ops.paramNodesSize s.graph = p

/-! ## The C++ `float`

A model of IEEE-754 binary32, used where a claim depends on what `float` arithmetic does
and an ordered field does not: infinities, NaN, overflow, underflow and rounding.  A
finite value is held as the rational number it denotes.  Every operation computes the
exact result and rounds it to the nearest binary32 value, ties to even; results below the
normal range are rounded on the subnormal grid `2^-149` and results that round to `2^128`
or more become infinite.  The sign of a zero and the payload of a NaN are not
represented. -/

/-- A binary32 value: NaN, `+inf` (`inf false`), `-inf` (`inf true`) or a finite value. -/
inductive F32 where
  | nan : F32
  | inf (neg : Bool) : F32
  | fin (q : ℚ) : F32
  deriving DecidableEq

namespace F32

/-- The quotient `a / b` of two naturals (`b > 0`) rounded to the nearest natural, ties
to even. -/
def rne (a b : Nat) : Nat :=
  let t := a / b
  let r := a % b
  if 2 * r > b ∨ (2 * r = b ∧ t % 2 = 1) then t + 1 else t

/-- The position of the leading bit of `n`, for `n ≤ fuel`: `2^k ≤ n < 2^(k+1)`. -/
def log2Fuel : Nat → Nat → Nat
  | 0, _ => 0
  | fuel + 1, n => if n < 2 then 0 else log2Fuel fuel (n / 2) + 1

/-- The position of the leading bit of `n ≥ 1`. -/
def log2 (n : Nat) : Nat := log2Fuel n n

/-- Rounding of an exact result to binary32.  With `2^e ≤ |q| < 2^(e+1)` the last place
of the result has weight `2^p`, `p = max (e - 23) (-149)` (24 significant bits, subnormal
grid below `2^-126`); `|q| / 2^p` is rounded to the nearest integer `n`, ties to even, and
`n * 2^p ≥ 2^128` overflows to an infinity. -/
def round (q : ℚ) : F32 :=
  let a := q.num.natAbs
  let d := q.den
  if a = 0 then fin 0 else
    let e0 : Int := (log2 a : Int) - (log2 d : Int)
    let e : Int :=
      if (0 ≤ e0 ∧ d * 2 ^ e0.toNat ≤ a) ∨ (e0 < 0 ∧ d ≤ a * 2 ^ (-e0).toNat) then e0
      else e0 - 1
    let p : Int := max (e - 23) (-149)
    let n : Nat := if 0 ≤ p then rne a (d * 2 ^ p.toNat) else rne (a * 2 ^ (-p).toNat) d
    let r : ℚ := if 0 ≤ p then ((n * 2 ^ p.toNat : Nat) : ℚ) else mkRat n (2 ^ (-p).toNat)
    if (340282366920938463463374607431768211456 : ℚ) ≤ r then inf (decide (q < 0))
    else fin (if q < 0 then -r else r)

/-- Addition: `inf + (-inf)` is NaN, NaN propagates. -/
def add : F32 → F32 → F32
  | nan, _ => nan
  | _, nan => nan
  | inf s, inf t => if s = t then inf s else nan
  | inf s, fin _ => inf s
  | fin _, inf t => inf t
  | fin a, fin b => round (a + b)

/-- Negation. -/
def neg : F32 → F32
  | nan => nan
  | inf s => inf (!s)
  | fin a => fin (-a)

/-- Subtraction: `inf - inf` is NaN. -/
def sub (a b : F32) : F32 := add a (neg b)

/-- Multiplication: `0 * inf` is NaN. -/
def mul : F32 → F32 → F32
  | nan, _ => nan
  | _, nan => nan
  | inf s, inf t => inf (s != t)
  | inf s, fin b => if b = 0 then nan else inf (s != decide (b < 0))
  | fin a, inf t => if a = 0 then nan else inf (decide (a < 0) != t)
  | fin a, fin b => round (a * b)

/-- Division: `inf / inf` and `0 / 0` are NaN, a finite value over an infinity is `0`. -/
def div : F32 → F32 → F32
  | nan, _ => nan
  | _, nan => nan
  | inf _, inf _ => nan
  | inf s, fin b => inf (s != decide (b < 0))
  | fin _, inf _ => fin 0
  | fin a, fin b =>
    if b = 0 then (if a = 0 then nan else inf (decide (a < 0))) else round (a / b)

/-- The comparison `<`: false when an operand is NaN. -/
def blt : F32 → F32 → Bool
  | nan, _ => false
  | _, nan => false
  | inf s, inf t => s && !t
  | inf s, fin _ => s
  | fin _, inf t => !t
  | fin a, fin b => decide (a < b)

/-- The comparison `<=`: false when an operand is NaN. -/
def ble : F32 → F32 → Bool
  | nan, _ => false
  | _, nan => false
  | inf s, inf t => s || !t
  | inf s, fin _ => s
  | fin _, inf t => !t
  | fin a, fin b => decide (a ≤ b)

instance : Zero F32 := ⟨fin 0⟩

instance (n : Nat) : OfNat F32 n := ⟨round n⟩

instance : Add F32 := ⟨add⟩

instance : Sub F32 := ⟨sub⟩

instance : Mul F32 := ⟨mul⟩

instance : Div F32 := ⟨div⟩

instance : LT F32 := ⟨fun a b => blt a b = true⟩

instance : LE F32 := ⟨fun a b => ble a b = true⟩

instance (a b : F32) : Decidable (a < b) := inferInstanceAs (Decidable (blt a b = true))

instance (a b : F32) : Decidable (a ≤ b) := inferInstanceAs (Decidable (ble a b = true))

end F32

/-- A new `GradientDescent<SquareLoss>` optimiser over `float` on the Scenario A graph
with weight `w`, after `setGraph`, `setTrainingSet` with the single example `(x, y)` and
`setLearningRate(eta)`. -/
def F32.trainer (w x y eta : F32) : BatchOptimizer F32 (ScenarioA.State F32) :=
  BatchOptimizer.setLearningRate
    (BatchOptimizer.setTrainingSet
      (BatchOptimizer.setGraph ScenarioA.graph (BatchOptimizer.fresh ⟨w, 0, 0, 0⟩) ⟨w, 0, 0, 0⟩)
      [[x]] [y] 1) eta

/-! ## Loop lemmas -/

section Loops

variable {K G : Type} [LinearOrderedField K]

theorem forRange_zero {σ : Type} (body : Nat → σ → Option σ) (s : σ) :
    forRange 0 body s = some s := rfl

theorem forRange_succ {σ : Type} (n : Nat) (body : Nat → σ → Option σ) (s : σ) :
    forRange (n + 1) body s = (forRange n body s).bind (body n) := by
  simp [forRange, List.range_succ, List.foldlM_append]

theorem memsetZero_eq (v : List K) (n : Nat) (h : v.length = n) :
    memsetZero v n = some (List.replicate n 0) := by
  simp [memsetZero, h.symm]

theorem graphAfter_size (L : LossT K) (ops : Graph K G) (hops : ops.Lawful)
    (inp : List (List K)) (out : List K) (g : G) (j : Nat) :
    ops.paramNodesSize (graphAfter L ops inp out g j) = ops.paramNodesSize g := by
  induction j with
  | zero => rfl
  | succ j ih =>
    simp only [graphAfter, forwardGraph, hops.size_backProp, hops.size_traverse,
      hops.size_setInputs, ih]

theorem graphAfter_getInput (L : LossT K) (ops : Graph K G) (hops : ops.Lawful)
    (inp : List (List K)) (out : List K) (g : G) (j k : Nat) :
    ops.getInput (graphAfter L ops inp out g j) k = ops.getInput g k := by
  induction j with
  | zero => rfl
  | succ j ih =>
    simp only [graphAfter, forwardGraph, hops.getInput_backProp, hops.getInput_traverse,
      hops.getInput_setInputs, ih]

/-- The inner loop over `k` adds the derivative of every parameter to its slot. -/
theorem forRange_addDeriv (ops : Graph K G) (s : BatchOptimizer K G) (f : Nat → K) (p : Nat)
    (hp : p ≤ ops.paramNodesSize s.graph) (m : Nat) (hm : m ≤ p)
    (hd : s.paramDerivs = (List.range p).map f) :
    forRange m (BatchOptimizer.addDeriv ops) s =
      some { s with paramDerivs := (List.map
        (fun k => if k < m then f k + ops.getDerivative s.graph k 0 else f k) (List.range p)) } := by
  induction m with
  | zero =>
    rw [forRange_zero]
    simp [← hd]
  | succ m ih =>
    rw [forRange_succ, ih (by omega)]
    have hmp : m < p := by omega
    have hms : m < ops.paramNodesSize s.graph := by omega
    simp only [Option.some_bind, BatchOptimizer.addDeriv, hms, if_true, List.getElem?_map,
      List.getElem?_range hmp, Option.map_some', lt_irrefl, if_false]
    congr 2
    apply List.ext_getElem?
    intro n
    simp only [List.getElem?_set, List.length_map, List.length_range, List.getElem?_map]
    by_cases hn : m = n
    · subst hn
      simp [hmp, List.getElem?_range hmp]
    · simp only [hn, if_false]
      by_cases hnp : n < p
      · simp only [List.getElem?_range hnp, Option.map_some']
        have : (n < m + 1) = (n < m) := by
          apply propext; constructor <;> intro h <;> omega
        simp only [this]
      · have hlen : (List.range p).length ≤ n := by simpa using hnp
        simp [List.getElem?_eq_none hlen]

theorem epochDeriv_succ (L : LossT K) (ops : Graph K G) (inp : List (List K)) (out : List K)
    (g : G) (n k : Nat) :
    epochDeriv L ops inp out g (n + 1) k =
      epochDeriv L ops inp out g n k +
        ops.getDerivative (graphAfter L ops inp out g (n + 1)) k 0 := by
  simp [epochDeriv, Finset.sum_range_succ]

theorem epochLoss_succ (L : LossT K) (ops : Graph K G) (inp : List (List K)) (out : List K)
    (g : G) (n : Nat) :
    epochLoss L ops inp out g (n + 1) =
      epochLoss L ops inp out g n + L.loss (outputAt L ops inp out g n) (out.getD n 0) := by
  simp [epochLoss, Finset.sum_range_succ]

/-- The loop over the training set: after `n` examples the graph is `graphAfter n`, the
accumulator holds the summed derivatives and `overallError` the summed loss. -/
theorem forRange_exampleStep (L : LossT K) (ops : Graph K G) (hops : ops.Lawful)
    (s : BatchOptimizer K G) (hsize : s.nParams = ops.paramNodesSize s.graph)
    (hd : s.paramDerivs = List.replicate s.nParams 0) (n : Nat)
    (hin : n ≤ s.inputs.length) (hout : n ≤ s.outputs.length) :
    forRange n (BatchOptimizer.exampleStep L ops) (s, 0) =
      some ({ s with
              graph := graphAfter L ops s.inputs s.outputs s.graph n
              paramDerivs := (List.range s.nParams).map
                (epochDeriv L ops s.inputs s.outputs s.graph n) },
            epochLoss L ops s.inputs s.outputs s.graph n) := by
  induction n with
  | zero =>
    rw [forRange_zero]
    have h0 : (List.range s.nParams).map (epochDeriv L ops s.inputs s.outputs s.graph 0) =
        s.paramDerivs := by
      rw [hd]
      apply List.ext_getElem?
      intro k
      by_cases hk : k < s.nParams
      · simp [List.getElem?_range hk, List.getElem?_replicate, hk, epochDeriv]
      · have hlen : (List.range s.nParams).length ≤ k := by simpa using hk
        simp [List.getElem?_eq_none hlen, List.getElem?_replicate, hk]
    simp [h0, epochLoss, graphAfter]
  | succ n ih =>
    rw [forRange_succ, ih (by omega) (by omega)]
    have hi : s.inputs[n]? = some (s.inputs.getD n []) := by
      rw [List.getD_eq_getElem?_getD, List.getElem?_eq_getElem (by omega)]
      rfl
    have ho : s.outputs[n]? = some (s.outputs.getD n 0) := by
      rw [List.getD_eq_getElem?_getD, List.getElem?_eq_getElem (by omega)]
      rfl
    simp only [Option.some_bind, BatchOptimizer.exampleStep, BatchOptimizer.forwardPass, hi, ho]
    rw [forRange_addDeriv ops _ (epochDeriv L ops s.inputs s.outputs s.graph n) s.nParams
      (by
        simp only [hops.size_backProp, hops.size_traverse, hops.size_setInputs,
          graphAfter_size L ops hops, hsize]
        exact le_refl _) s.nParams (le_refl _) rfl]
    simp only [Option.some.injEq, Prod.mk.injEq]
    refine ⟨?_, ?_⟩
    · have hmap : List.map (fun k => if k < s.nParams then
            epochDeriv L ops s.inputs s.outputs s.graph n k +
              ops.getDerivative (ops.backProp (ops.traverse (ops.setInputs
                (graphAfter L ops s.inputs s.outputs s.graph n) (s.inputs.getD n []))) 0
                (L.derivative (ops.getOutput (ops.traverse (ops.setInputs
                  (graphAfter L ops s.inputs s.outputs s.graph n) (s.inputs.getD n []))) 0)
                  (s.outputs.getD n 0))) k 0
            else epochDeriv L ops s.inputs s.outputs s.graph n k) (List.range s.nParams) =
          List.map (epochDeriv L ops s.inputs s.outputs s.graph (n + 1))
            (List.range s.nParams) := by
        apply List.map_congr_left
        intro k hk
        rw [List.mem_range] at hk
        rw [if_pos hk, epochDeriv_succ]
        rfl
      rw [hmap]
      rfl
    · rw [epochLoss_succ]
      rfl

theorem updatedGraph_succ (ops : Graph K G) (eta : K) (d : Nat → K) (g : G) (n : Nat) :
    updatedGraph ops eta d g (n + 1) =
      ops.setInput (updatedGraph ops eta d g n) n
        (ops.getInput (updatedGraph ops eta d g n) n - eta * d n) := by
  simp [updatedGraph, List.range_succ, List.foldl_append]

theorem updatedGraph_size (ops : Graph K G) (hops : ops.Lawful) (eta : K) (d : Nat → K)
    (g : G) (n : Nat) :
    ops.paramNodesSize (updatedGraph ops eta d g n) = ops.paramNodesSize g := by
  induction n with
  | zero => rfl
  | succ n ih => rw [updatedGraph_succ, hops.size_setInput, ih]

/-- The loop of `updateParams`, in closed form. -/
theorem forRange_updateParam (ops : Graph K G) (hops : ops.Lawful) (s : BatchOptimizer K G)
    (d : Nat → K) (p : Nat) (hp : p ≤ ops.paramNodesSize s.graph)
    (hd : s.paramDerivs = (List.range p).map d) (n : Nat) (hn : n ≤ p) :
    forRange n (GradientDescent.updateParam ops) s =
      some { s with graph := updatedGraph ops s.learningRate d s.graph n } := by
  induction n with
  | zero => rfl
  | succ n ih =>
    rw [forRange_succ, ih (by omega)]
    have hnp : n < p := by omega
    have hns : n < ops.paramNodesSize (updatedGraph ops s.learningRate d s.graph n) := by
      rw [updatedGraph_size ops hops]
      omega
    simp only [Option.some_bind, GradientDescent.updateParam, hns, if_true, hd,
      List.getElem?_map, List.getElem?_range hnp, Option.map_some', updatedGraph_succ]

/-- One epoch of `GradientDescent` on a well-formed state returns, and returns the
closed form `epochResult`. -/
theorem runEpoch_eq (L : LossT K) (ops : Graph K G) (hops : ops.Lawful)
    (s : BatchOptimizer K G) (hwf : WellFormed ops s) :
    GradientDescent.runEpoch L ops s = some (epochResult L ops s) := by
  obtain ⟨hsize, hlen, hin, hout⟩ := hwf
  unfold GradientDescent.runEpoch BatchOptimizer.runEpoch
  rw [memsetZero_eq _ _ hlen]
  simp only
  rw [forRange_exampleStep L ops hops { s with paramDerivs := List.replicate s.nParams 0 }
    hsize rfl s.setSize hin hout]
  simp only [GradientDescent.updateParams]
  by_cases hE : epochLoss L ops s.inputs s.outputs s.graph s.setSize > s.lastOverallError
  · simp only [hE, if_true]
    rw [forRange_updateParam ops hops _
      (epochDeriv L ops s.inputs s.outputs s.graph s.setSize) s.nParams
      (by simp only [graphAfter_size L ops hops, hsize]; exact le_refl _) rfl _
      (by simp only [graphAfter_size L ops hops, hsize]; exact le_refl _)]
    simp [epochResult, nextRate, hE, graphAfter_size L ops hops, hsize]
  · simp only [hE, if_false]
    rw [forRange_updateParam ops hops _
      (epochDeriv L ops s.inputs s.outputs s.graph s.setSize) s.nParams
      (by simp only [graphAfter_size L ops hops, hsize]; exact le_refl _) rfl _
      (by simp only [graphAfter_size L ops hops, hsize]; exact le_refl _)]
    simp [epochResult, nextRate, hE, graphAfter_size L ops hops, hsize]

theorem epochResult_wellFormed (L : LossT K) (ops : Graph K G) (hops : ops.Lawful)
    (s : BatchOptimizer K G) (hwf : WellFormed ops s) :
    WellFormed ops (epochResult L ops s) := by
  obtain ⟨hsize, _, hin, hout⟩ := hwf
  refine ⟨?_, ?_, hin, hout⟩
  · simp [epochResult, updatedGraph_size ops hops, graphAfter_size L ops hops, hsize]
  · simp [epochResult]

theorem updatedGraph_getInput (ops : Graph K G) (hops : ops.Lawful) (eta : K) (d : Nat → K)
    (g : G) (n : Nat) (hn : n ≤ ops.paramNodesSize g) (k : Nat) :
    ops.getInput (updatedGraph ops eta d g n) k =
      if k < n then ops.getInput g k - eta * d k else ops.getInput g k := by
  induction n with
  | zero => simp [updatedGraph]
  | succ n ih =>
    have ih := ih (by omega)
    rw [updatedGraph_succ]
    by_cases hk : k = n
    · subst hk
      rw [hops.getInput_setInput_same _ _ _ (by rw [updatedGraph_size ops hops]; omega), ih]
      simp
    · rw [hops.getInput_setInput_other _ _ _ _ hk, ih]
      have : (k < n + 1) = (k < n) := by
        apply propext; constructor <;> intro h <;> omega
      simp only [this]

/-- On a well-formed state `runEpochs` returns the `n`-fold closed form. -/
theorem runEpochs_eq (L : LossT K) (ops : Graph K G) (hops : ops.Lawful) (n : Nat)
    (s : BatchOptimizer K G) (hwf : WellFormed ops s) :
    GradientDescent.runEpochs L ops n s = some ((epochResult L ops)^[n] s) ∧
      WellFormed ops ((epochResult L ops)^[n] s) := by
  induction n generalizing s with
  | zero => exact ⟨rfl, hwf⟩
  | succ n ih =>
    have h := ih (epochResult L ops s) (epochResult_wellFormed L ops hops s hwf)
    refine ⟨?_, ?_⟩
    · rw [GradientDescent.runEpochs, runEpoch_eq L ops hops s hwf, Option.some_bind, h.1]
      rfl
    · exact h.2

theorem runEpochs_add (L : LossT K) (ops : Graph K G) (a b : Nat) (s : BatchOptimizer K G) :
    GradientDescent.runEpochs L ops (a + b) s =
      (GradientDescent.runEpochs L ops a s).bind (GradientDescent.runEpochs L ops b) := by
  induction a generalizing s with
  | zero => simp [GradientDescent.runEpochs]
  | succ a ih =>
    have hab : a + 1 + b = (a + b) + 1 := by omega
    rw [hab, GradientDescent.runEpochs, GradientDescent.runEpochs]
    cases h : GradientDescent.runEpoch L ops s with
    | none => rfl
    | some s1 => simp only [Option.some_bind, ih]

theorem nextRate_le (eta ePrev e : K) (h : 0 ≤ eta) : nextRate eta ePrev e ≤ eta := by
  unfold nextRate
  split
  · linarith
  · exact le_refl _

theorem nextRate_nonneg (eta ePrev e : K) (h : 0 ≤ eta) : 0 ≤ nextRate eta ePrev e := by
  unfold nextRate
  split
  · linarith
  · exact h

theorem epochResult_iterate_rate (L : LossT K) (ops : Graph K G) (s : BatchOptimizer K G)
    (h : 0 ≤ s.learningRate) (n : Nat) :
    0 ≤ ((epochResult L ops)^[n] s).learningRate ∧
      ((epochResult L ops)^[n + 1] s).learningRate ≤ ((epochResult L ops)^[n] s).learningRate ∧
      ((epochResult L ops)^[n] s).learningRate ≤ s.learningRate := by
  induction n with
  | zero =>
    refine ⟨h, ?_, le_refl _⟩
    exact nextRate_le _ _ _ h
  | succ n ih =>
    obtain ⟨h0, h1, h2⟩ := ih
    have hn : 0 ≤ ((epochResult L ops)^[n + 1] s).learningRate := by
      rw [Function.iterate_succ_apply']
      exact nextRate_nonneg _ _ _ h0
    refine ⟨hn, ?_, le_trans h1 h2⟩
    rw [Function.iterate_succ_apply' (epochResult L ops) (n + 1)]
    exact nextRate_le _ _ _ hn

theorem runEpochs_iterate (L : LossT K) (ops : Graph K G) (n : Nat) (s : BatchOptimizer K G) :
    GradientDescent.runEpochs L ops n s =
      (fun o : Option (BatchOptimizer K G) => o.bind (GradientDescent.runEpoch L ops))^[n]
        (some s) := by
  induction n generalizing s with
  | zero => rfl
  | succ n ih =>
    rw [Function.iterate_succ_apply, GradientDescent.runEpochs, Option.some_bind]
    cases h : GradientDescent.runEpoch L ops s with
    | none =>
      rw [Option.none_bind]
      clear ih h
      induction n with
      | zero => rfl
      | succ n ihn => rw [Function.iterate_succ_apply, Option.none_bind, ← ihn]
    | some s1 => rw [Option.some_bind, ih]

theorem squareLoss_nonneg (a b : K) : 0 ≤ SquareLoss.loss a b := by
  unfold SquareLoss.loss
  exact mul_self_nonneg _

theorem halves_eq (L : LossT K) (ops : Graph K G) (hops : ops.Lawful)
    (s : BatchOptimizer K G) (hwf : WellFormed ops s) :
    BatchOptimizer.halves L ops s =
      some (decide (epochLoss L ops s.inputs s.outputs s.graph s.setSize >
        s.lastOverallError)) := by
  obtain ⟨hsize, hlen, hin, hout⟩ := hwf
  unfold BatchOptimizer.halves
  rw [memsetZero_eq _ _ hlen]
  simp only
  rw [forRange_exampleStep L ops hops { s with paramDerivs := List.replicate s.nParams 0 }
    hsize rfl s.setSize hin hout]

theorem epochLoss_nonneg (L : LossT K) (hL : ∀ a b, 0 ≤ L.loss a b) (ops : Graph K G)
    (inp : List (List K)) (out : List K) (g : G) (n : Nat) :
    0 ≤ epochLoss L ops inp out g n := by
  unfold epochLoss
  exact Finset.sum_nonneg (fun j _ => hL _ _)

end Loops

/-! ## Scenario A lemmas -/

namespace ScenarioA

variable {K : Type} [LinearOrderedField K]

theorem graph_lawful : (graph : Graph K (State K)).Lawful where
  size_setInputs := fun _ _ => rfl
  size_traverse := fun _ => rfl
  size_backProp := fun _ _ _ => rfl
  size_setInput := fun _ _ _ => rfl
  getInput_setInputs := by
    intro g x k
    cases x with
    | nil => rfl
    | cons a t => cases t <;> rfl
  getInput_traverse := fun _ _ => rfl
  getInput_backProp := fun _ _ _ _ => rfl
  getInput_setInput_same := by
    intro g k v hk
    have hk0 : k = 0 := by
      simp only [graph] at hk
      omega
    simp [graph, hk0]
  getInput_setInput_other := by
    intro g k k' v hne
    simp only [graph]
    by_cases hk : k = 0
    · have hk' : k' ≠ 0 := by omega
      simp [hk, hk']
    · simp [hk]

theorem wired_wellFormed (s : BatchOptimizer K (State K)) (h : Wired s) :
    WellFormed graph s := by
  obtain ⟨hi, ho, hn, hp, hl⟩ := h
  refine ⟨hp, by rw [hl, hp], ?_, ?_⟩
  · simp [hi, hn, inputs]
  · simp [ho, hn, outputs]

theorem start_wired (eta0 : K) (g : State K) : Wired (start eta0 g) := by
  simp [Wired, start, BatchOptimizer.setLearningRate, BatchOptimizer.setTrainingSet,
    BatchOptimizer.setGraph, BatchOptimizer.fresh, resize, graph]

theorem epochLoss_eq (s : BatchOptimizer K (State K)) (h : Wired s) :
    epochLoss (SquareLoss K) graph s.inputs s.outputs s.graph s.setSize =
      14 * (s.graph.w - 3) ^ 2 := by
  obtain ⟨hi, ho, hn, _, _⟩ := h
  simp [hi, ho, hn, epochLoss, Finset.sum_range_succ, outputAt, graphAfter, forwardGraph, graph,
    inputs, outputs, SquareLoss, SquareLoss.loss]
  ring

theorem epochDeriv_eq (s : BatchOptimizer K (State K)) (h : Wired s) :
    epochDeriv (SquareLoss K) graph s.inputs s.outputs s.graph s.setSize 0 =
      28 * (s.graph.w - 3) := by
  obtain ⟨hi, ho, hn, _, _⟩ := h
  simp [hi, ho, hn, epochDeriv, Finset.sum_range_succ, graphAfter, forwardGraph, graph,
    inputs, outputs, SquareLoss, SquareLoss.derivative]
  ring

/-- One epoch on Scenario A: the new rate, the stored loss and the new weight. -/
theorem epochResult_eq (s : BatchOptimizer K (State K)) (h : Wired s) :
    Wired (epochResult (SquareLoss K) graph s) ∧
    (epochResult (SquareLoss K) graph s).learningRate =
      nextRate s.learningRate s.lastOverallError (14 * (s.graph.w - 3) ^ 2) ∧
    (epochResult (SquareLoss K) graph s).lastOverallError = 14 * (s.graph.w - 3) ^ 2 ∧
    (epochResult (SquareLoss K) graph s).graph.w - 3 =
      (1 - 28 * nextRate s.learningRate s.lastOverallError (14 * (s.graph.w - 3) ^ 2)) *
        (s.graph.w - 3) := by
  have hE := epochLoss_eq s h
  have hD := epochDeriv_eq s h
  obtain ⟨hi, ho, hn, hp, hl⟩ := h
  refine ⟨⟨?_, ?_, ?_, ?_, ?_⟩, ?_, ?_, ?_⟩
  · simpa [epochResult] using hi
  · simpa [epochResult] using ho
  · simpa [epochResult] using hn
  · simpa [epochResult] using hp
  · simp [epochResult, hp]
  · simp only [epochResult, hE]
  · simp only [epochResult, hE]
  · have h1 := updatedGraph_getInput graph graph_lawful
      (nextRate s.learningRate s.lastOverallError (14 * (s.graph.w - 3) ^ 2))
      (epochDeriv (SquareLoss K) graph s.inputs s.outputs s.graph s.setSize)
      (graphAfter (SquareLoss K) graph s.inputs s.outputs s.graph s.setSize) 1 (le_refl _) 0
    rw [if_pos Nat.one_pos, graphAfter_getInput (SquareLoss K) graph graph_lawful, hD] at h1
    have h2 : (epochResult (SquareLoss K) graph s).graph.w =
        s.graph.w - nextRate s.learningRate s.lastOverallError (14 * (s.graph.w - 3) ^ 2) *
          (28 * (s.graph.w - 3)) := by
      simp only [epochResult, hE, hp]
      exact h1
    rw [h2]
    ring

theorem demo_wellFormed : WellFormed graph demo :=
  wired_wellFormed demo (start_wired _ _)

theorem tracks_step (s : BatchOptimizer K (State K)) (p : Coef K) (e0 : K) (he : e0 ≠ 0)
    (h : Tracks s p e0) : Tracks (epochResult (SquareLoss K) graph s) (Coef.step p) e0 := by
  obtain ⟨hw, hc, hl, hr⟩ := h
  obtain ⟨hw1, hr1, hl1, hc1⟩ := epochResult_eq s hw
  have he2 : 0 < e0 ^ 2 := by positivity
  have hrate : nextRate s.learningRate s.lastOverallError (14 * (s.graph.w - 3) ^ 2) =
      (Coef.step p).eta := by
    simp only [nextRate, Coef.step, hc, hl, hr, mul_pow]
    by_cases hlt : p.c ^ 2 > p.cPrev ^ 2
    · have : 14 * (p.c ^ 2 * e0 ^ 2) > 14 * (p.cPrev ^ 2 * e0 ^ 2) := by
        have := mul_lt_mul_of_pos_right hlt he2
        linarith
      simp [hlt, this]
    · have : ¬ 14 * (p.c ^ 2 * e0 ^ 2) > 14 * (p.cPrev ^ 2 * e0 ^ 2) := by
        have := mul_le_mul_of_nonneg_right (not_lt.mp hlt) he2.le
        intro hgt
        linarith
      simp [hlt, this]
  refine ⟨hw1, ?_, ?_, ?_⟩
  · rw [hc1, hrate, hc]
    simp only [Coef.step]
    ring
  · rw [hl1, hc]
    rfl
  · rw [hr1, hrate]

theorem tracks_iterate (s : BatchOptimizer K (State K)) (p : Coef K) (e0 : K) (he : e0 ≠ 0)
    (h : Tracks s p e0) (n : Nat) :
    Tracks ((epochResult (SquareLoss K) graph)^[n] s) (Coef.step^[n] p) e0 := by
  induction n generalizing s p with
  | zero => exact h
  | succ n ih =>
    rw [Function.iterate_succ_apply, Function.iterate_succ_apply]
    exact ih _ _ (tracks_step s p e0 he h)

theorem halvingCount_tracks (s : BatchOptimizer K (State K)) (p : Coef K) (e0 : K)
    (he : e0 ≠ 0) (h : Tracks s p e0) (n : Nat) :
    halvingCount (SquareLoss K) graph n s = Coef.halvings n p := by
  induction n generalizing s p with
  | zero => rfl
  | succ n ih =>
    have h1 := tracks_step s p e0 he h
    rw [halvingCount, runEpoch_eq (SquareLoss K) graph graph_lawful s (wired_wellFormed s h.1)]
    simp only [Coef.halvings]
    rw [ih _ _ h1, h1.2.2.2, h.2.2.2]

theorem start_tracks (eta0 : K) (g : State K) :
    Tracks (start eta0 g) ⟨1, 0, eta0⟩ (g.w - 3) := by
  refine ⟨start_wired eta0 g, ?_, ?_, rfl⟩
  · simp [start, BatchOptimizer.setLearningRate, BatchOptimizer.setTrainingSet,
      BatchOptimizer.setGraph, BatchOptimizer.fresh]
  · simp [start, BatchOptimizer.setLearningRate, BatchOptimizer.setTrainingSet,
      BatchOptimizer.setGraph, BatchOptimizer.fresh]

theorem settling_step (s : BatchOptimizer K (State K)) (hw : Wired s) (hs : Settling s) :
    Wired (epochResult (SquareLoss K) graph s) ∧
      Settling (epochResult (SquareLoss K) graph s) ∧
      |(epochResult (SquareLoss K) graph s).graph.w - 3| ≤ 43 / 50 * |s.graph.w - 3| := by
  obtain ⟨hw1, hr1, hl1, hc1⟩ := epochResult_eq s hw
  have hsq : 0 ≤ (s.graph.w - 3) ^ 2 := sq_nonneg _
  have habs : 0 ≤ |s.graph.w - 3| := abs_nonneg _
  rcases hs with ⟨hr, hl⟩ | ⟨hr, hl⟩
  · by_cases hpos : 14 * (s.graph.w - 3) ^ 2 > 0
    · have hrate : (epochResult (SquareLoss K) graph s).learningRate = 1 / 200 := by
        rw [hr1, hr, hl]
        simp only [nextRate, hpos, if_true]
        norm_num
      rw [← hr1, hrate] at hc1
      refine ⟨hw1, Or.inr ⟨Or.inr hrate, ?_⟩, ?_⟩
      · rw [hl1, hc1]
        nlinarith
      · rw [hc1, abs_mul]
        have : |(1 - 28 * (1 / 200) : K)| = 43 / 50 := by
          rw [abs_of_nonneg] <;> norm_num
        rw [this]
    · have hz : s.graph.w - 3 = 0 := by
        have : (s.graph.w - 3) ^ 2 = 0 := by
          apply le_antisymm _ hsq
          linarith [not_lt.mp hpos]
        exact pow_eq_zero_iff (by norm_num) |>.mp this
      have hrate : (epochResult (SquareLoss K) graph s).learningRate = 1 / 100 := by
        rw [hr1, hr, hl]
        simp only [nextRate, hpos, if_false]
      refine ⟨hw1, Or.inl ⟨hrate, ?_⟩, ?_⟩
      · rw [hl1, hz]
        norm_num
      · rw [hc1, hz]
        simp
  · have hkeep : ¬ 14 * (s.graph.w - 3) ^ 2 > s.lastOverallError := not_lt.mpr hl
    have hrate : (epochResult (SquareLoss K) graph s).learningRate = s.learningRate := by
      rw [hr1]
      simp only [nextRate, hkeep, if_false]
    rw [← hr1, hrate] at hc1
    rcases hr with hr | hr
    · rw [hr] at hc1
      refine ⟨hw1, Or.inr ⟨Or.inl (by rw [hrate, hr]), ?_⟩, ?_⟩
      · rw [hl1, hc1]
        nlinarith
      · rw [hc1, abs_mul]
        have : |(1 - 28 * (1 / 100) : K)| = 18 / 25 := by
          rw [abs_of_nonneg] <;> norm_num
        rw [this]
        nlinarith
    · rw [hr] at hc1
      refine ⟨hw1, Or.inr ⟨Or.inr (by rw [hrate, hr]), ?_⟩, ?_⟩
      · rw [hl1, hc1]
        nlinarith
      · rw [hc1, abs_mul]
        have : |(1 - 28 * (1 / 200) : K)| = 43 / 50 := by
          rw [abs_of_nonneg] <;> norm_num
        rw [this]

theorem settling_iterate (s : BatchOptimizer K (State K)) (hw : Wired s) (hs : Settling s)
    (n : Nat) :
    Wired ((epochResult (SquareLoss K) graph)^[n] s) ∧
      Settling ((epochResult (SquareLoss K) graph)^[n] s) ∧
      |((epochResult (SquareLoss K) graph)^[n] s).graph.w - 3| ≤
        (43 / 50) ^ n * |s.graph.w - 3| := by
  induction n with
  | zero => exact ⟨hw, hs, by simp⟩
  | succ n ih =>
    obtain ⟨hwn, hsn, hbn⟩ := ih
    obtain ⟨hw1, hs1, hb1⟩ := settling_step _ hwn hsn
    rw [Function.iterate_succ_apply']
    refine ⟨hw1, hs1, le_trans hb1 ?_⟩
    rw [pow_succ]
    have : (0 : K) ≤ 43 / 50 := by norm_num
    nlinarith [mul_le_mul_of_nonneg_left hbn this]

theorem coef_run_large (K : Type) [LinearOrderedField K] :
    ((Coef.step^[10] (⟨1, 0, 10⟩ : Coef K)).eta = 10 / 2 ^ 8) ∧
      Coef.halvings 10 (⟨1, 0, 10⟩ : Coef K) = 8 := by
  refine ⟨?_, ?_⟩
  · norm_num [Function.iterate_succ, Coef.step]
  · norm_num [Coef.halvings, Coef.step]

theorem coef_run_fixed (K : Type) [LinearOrderedField K] :
    ((Coef.step^[10] (⟨0, 0, 10⟩ : Coef K)).eta = 10) ∧
      Coef.halvings 10 (⟨0, 0, 10⟩ : Coef K) = 0 := by
  refine ⟨?_, ?_⟩
  · norm_num [Function.iterate_succ, Coef.step]
  · norm_num [Coef.halvings, Coef.step]

theorem runEpoch_start (s : BatchOptimizer K (State K)) (h : Wired s) :
    GradientDescent.runEpoch (SquareLoss K) graph s =
      some (epochResult (SquareLoss K) graph s) :=
  runEpoch_eq (SquareLoss K) graph graph_lawful s (wired_wellFormed s h)

end ScenarioA

/-! ## The update of one epoch -/

section Claims

variable {K G : Type} [LinearOrderedField K]

/-- C1: on a well-formed state over a lawful graph one `runEpoch` of `GradientDescent`
returns; the learning rate it leaves is the rate after this epoch's halving decision, and
every registered parameter `k` holds its old value minus that rate times the derivative
accumulated for `k` during this epoch.  No example of the epoch changes a parameter, and
nothing outside the registered parameters is written. -/
theorem C1_runEpoch_update (L : LossT K) (ops : Graph K G) (hops : ops.Lawful)
    (s : BatchOptimizer K G) (hwf : WellFormed ops s) :
    ∃ s1, GradientDescent.runEpoch L ops s = some s1 ∧
      s1.learningRate =
        (if epochLoss L ops s.inputs s.outputs s.graph s.setSize > s.lastOverallError
          then s.learningRate / 2 else s.learningRate) ∧
      (∀ k, k < ops.paramNodesSize s.graph →
        s1.paramDerivs[k]? = some (epochDeriv L ops s.inputs s.outputs s.graph s.setSize k) ∧
        ops.getInput s1.graph k = ops.getInput s.graph k -
          s1.learningRate * epochDeriv L ops s.inputs s.outputs s.graph s.setSize k) ∧
      (∀ k, ¬ k < ops.paramNodesSize s.graph →
        ops.getInput s1.graph k = ops.getInput s.graph k) ∧
      (∀ j k, ops.getInput (graphAfter L ops s.inputs s.outputs s.graph j) k =
        ops.getInput s.graph k) ∧
      ops.paramNodesSize s1.graph = ops.paramNodesSize s.graph := by
  have hsize : s.nParams = ops.paramNodesSize s.graph := hwf.1
  have hle : s.nParams ≤
      ops.paramNodesSize (graphAfter L ops s.inputs s.outputs s.graph s.setSize) := by
    rw [graphAfter_size L ops hops, hsize]
  refine ⟨epochResult L ops s, runEpoch_eq L ops hops s hwf, rfl, ?_, ?_, ?_, ?_⟩
  · intro k hk
    have hk1 : k < s.nParams := by omega
    refine ⟨?_, ?_⟩
    · simp [epochResult, List.getElem?_range hk1]
    · simp only [epochResult]
      rw [updatedGraph_getInput ops hops _ _ _ _ hle, if_pos hk1,
        graphAfter_getInput L ops hops]
  · intro k hk
    have hk1 : ¬ k < s.nParams := by omega
    simp only [epochResult]
    rw [updatedGraph_getInput ops hops _ _ _ _ hle, if_neg hk1,
      graphAfter_getInput L ops hops]
  · intro j k
    exact graphAfter_getInput L ops hops _ _ _ j k
  · simp only [epochResult]
    rw [updatedGraph_size ops hops, graphAfter_size L ops hops]

/-- Witness of C1 on the Scenario A optimiser (`w = 0`, `eta0 = 0.01`). -/
theorem C1_runEpoch_update_witness :
    (ScenarioA.graph : Graph ℚ (ScenarioA.State ℚ)).Lawful ∧
    WellFormed ScenarioA.graph ScenarioA.demo ∧
    ∃ s1, GradientDescent.runEpoch (SquareLoss ℚ) ScenarioA.graph ScenarioA.demo = some s1 ∧
      s1.learningRate =
        (if epochLoss (SquareLoss ℚ) ScenarioA.graph ScenarioA.demo.inputs
            ScenarioA.demo.outputs ScenarioA.demo.graph ScenarioA.demo.setSize >
            ScenarioA.demo.lastOverallError
          then ScenarioA.demo.learningRate / 2 else ScenarioA.demo.learningRate) ∧
      (∀ k, k < ScenarioA.graph.paramNodesSize ScenarioA.demo.graph →
        s1.paramDerivs[k]? = some (epochDeriv (SquareLoss ℚ) ScenarioA.graph
          ScenarioA.demo.inputs ScenarioA.demo.outputs ScenarioA.demo.graph
          ScenarioA.demo.setSize k) ∧
        ScenarioA.graph.getInput s1.graph k = ScenarioA.graph.getInput ScenarioA.demo.graph k -
          s1.learningRate * epochDeriv (SquareLoss ℚ) ScenarioA.graph ScenarioA.demo.inputs
            ScenarioA.demo.outputs ScenarioA.demo.graph ScenarioA.demo.setSize k) ∧
      (∀ k, ¬ k < ScenarioA.graph.paramNodesSize ScenarioA.demo.graph →
        ScenarioA.graph.getInput s1.graph k = ScenarioA.graph.getInput ScenarioA.demo.graph k) ∧
      (∀ j k, ScenarioA.graph.getInput (graphAfter (SquareLoss ℚ) ScenarioA.graph
          ScenarioA.demo.inputs ScenarioA.demo.outputs ScenarioA.demo.graph j) k =
        ScenarioA.graph.getInput ScenarioA.demo.graph k) ∧
      ScenarioA.graph.paramNodesSize s1.graph =
        ScenarioA.graph.paramNodesSize ScenarioA.demo.graph :=
  ⟨ScenarioA.graph_lawful, ScenarioA.demo_wellFormed,
    C1_runEpoch_update (SquareLoss ℚ) ScenarioA.graph ScenarioA.graph_lawful ScenarioA.demo
      ScenarioA.demo_wellFormed⟩

/-- C2: the accumulator entry `k` left by an epoch, which is the one the update uses, is
the sum over the examples `j < setSize` of the derivative read from parameter `k` after
`setInputs(x_j); traverse(); backProp(0, LossT::derivative(o_j, y_j))`.  It does not
depend on what `paramDerivs` held before, and every example sees the parameter values of
the start of the epoch. -/
theorem C2_accumulator (L : LossT K) (ops : Graph K G) (hops : ops.Lawful)
    (s : BatchOptimizer K G) (hwf : WellFormed ops s) :
    ∃ s1, GradientDescent.runEpoch L ops s = some s1 ∧
      s1.paramDerivs.length = s.nParams ∧
      (∀ k, k < s.nParams → ∃ d, s1.paramDerivs[k]? = some d ∧
        d = ∑ j in Finset.range s.setSize,
          ops.getDerivative
            (ops.backProp
              (forwardGraph ops (graphAfter L ops s.inputs s.outputs s.graph j)
                (s.inputs.getD j []))
              0 (L.derivative (outputAt L ops s.inputs s.outputs s.graph j)
                (s.outputs.getD j 0))) k 0 ∧
        ops.getInput s1.graph k = ops.getInput s.graph k - s1.learningRate * d) ∧
      (∀ v : List K, v.length = s.nParams →
        GradientDescent.runEpoch L ops { s with paramDerivs := v } = some s1) ∧
      (∀ j k, ops.getInput (graphAfter L ops s.inputs s.outputs s.graph j) k =
        ops.getInput s.graph k) := by
  have hsize : s.nParams = ops.paramNodesSize s.graph := hwf.1
  have hle : s.nParams ≤
      ops.paramNodesSize (graphAfter L ops s.inputs s.outputs s.graph s.setSize) := by
    rw [graphAfter_size L ops hops, hsize]
  refine ⟨epochResult L ops s, runEpoch_eq L ops hops s hwf, ?_, ?_, ?_, ?_⟩
  · simp [epochResult]
  · intro k hk
    refine ⟨epochDeriv L ops s.inputs s.outputs s.graph s.setSize k, ?_, rfl, ?_⟩
    · simp [epochResult, List.getElem?_range hk]
    · simp only [epochResult]
      rw [updatedGraph_getInput ops hops _ _ _ _ hle, if_pos hk,
        graphAfter_getInput L ops hops]
  · intro v hv
    have hwf1 : WellFormed ops { s with paramDerivs := v } := ⟨hwf.1, hv, hwf.2.2.1, hwf.2.2.2⟩
    rw [runEpoch_eq L ops hops _ hwf1]
    rfl
  · intro j k
    exact graphAfter_getInput L ops hops _ _ _ j k

/-- Witness of C2 on the Scenario A optimiser (`w = 0`, `eta0 = 0.01`). -/
theorem C2_accumulator_witness :
    (ScenarioA.graph : Graph ℚ (ScenarioA.State ℚ)).Lawful ∧
    WellFormed ScenarioA.graph ScenarioA.demo ∧
    ∃ s1, GradientDescent.runEpoch (SquareLoss ℚ) ScenarioA.graph ScenarioA.demo = some s1 ∧
      s1.paramDerivs.length = ScenarioA.demo.nParams ∧
      (∀ k, k < ScenarioA.demo.nParams → ∃ d, s1.paramDerivs[k]? = some d ∧
        d = ∑ j in Finset.range ScenarioA.demo.setSize,
          ScenarioA.graph.getDerivative
            (ScenarioA.graph.backProp
              (forwardGraph ScenarioA.graph (graphAfter (SquareLoss ℚ) ScenarioA.graph
                ScenarioA.demo.inputs ScenarioA.demo.outputs ScenarioA.demo.graph j)
                (ScenarioA.demo.inputs.getD j []))
              0 ((SquareLoss ℚ).derivative (outputAt (SquareLoss ℚ) ScenarioA.graph
                ScenarioA.demo.inputs ScenarioA.demo.outputs ScenarioA.demo.graph j)
                (ScenarioA.demo.outputs.getD j 0))) k 0 ∧
        ScenarioA.graph.getInput s1.graph k =
          ScenarioA.graph.getInput ScenarioA.demo.graph k - s1.learningRate * d) ∧
      (∀ v : List ℚ, v.length = ScenarioA.demo.nParams →
        GradientDescent.runEpoch (SquareLoss ℚ) ScenarioA.graph
          { ScenarioA.demo with paramDerivs := v } = some s1) ∧
      (∀ j k, ScenarioA.graph.getInput (graphAfter (SquareLoss ℚ) ScenarioA.graph
          ScenarioA.demo.inputs ScenarioA.demo.outputs ScenarioA.demo.graph j) k =
        ScenarioA.graph.getInput ScenarioA.demo.graph k) :=
  ⟨ScenarioA.graph_lawful, ScenarioA.demo_wellFormed,
    C2_accumulator (SquareLoss ℚ) ScenarioA.graph ScenarioA.graph_lawful ScenarioA.demo
      ScenarioA.demo_wellFormed⟩

/-! ## The learning rate -/

/-- C3, as stated, fails when the learning rate is `0`: on Scenario A with `w = 3` and
`eta = 0` the epoch loss `0` does not exceed `E_prev = 0`, yet the rate after the epoch,
`0`, is `eta / 2`. -/
theorem C3_counterexample :
    ∃ s1, GradientDescent.runEpoch (SquareLoss ℚ) ScenarioA.graph
        (ScenarioA.start 0 (ScenarioA.initial 3)) = some s1 ∧
      ¬ (s1.learningRate = (ScenarioA.start (0 : ℚ) (ScenarioA.initial 3)).learningRate / 2 ↔
        epochLoss (SquareLoss ℚ) ScenarioA.graph
          (ScenarioA.start (0 : ℚ) (ScenarioA.initial 3)).inputs
          (ScenarioA.start (0 : ℚ) (ScenarioA.initial 3)).outputs
          (ScenarioA.start (0 : ℚ) (ScenarioA.initial 3)).graph
          (ScenarioA.start (0 : ℚ) (ScenarioA.initial 3)).setSize >
        (ScenarioA.start (0 : ℚ) (ScenarioA.initial 3)).lastOverallError) := by
  have hw := ScenarioA.start_wired (0 : ℚ) (ScenarioA.initial 3)
  obtain ⟨_, hr, _, _⟩ := ScenarioA.epochResult_eq _ hw
  refine ⟨_, ScenarioA.runEpoch_start _ hw, ?_⟩
  rw [hr, ScenarioA.epochLoss_eq _ hw]
  simp [ScenarioA.start, ScenarioA.initial, BatchOptimizer.setLearningRate,
    BatchOptimizer.setTrainingSet, BatchOptimizer.setGraph, BatchOptimizer.fresh, nextRate]

/-- C3 (amended): with `E` the loss summed over the training set, the epoch executes
`learningRate /= 2` if and only if `E > E_prev`; the rate after the epoch is `eta / 2`
when it does and exactly the old `eta` otherwise (also when `E = E_prev`); in both cases
`E_prev` becomes `E`. -/
theorem C3_halving_rule (L : LossT K) (ops : Graph K G) (hops : ops.Lawful)
    (s : BatchOptimizer K G) (hwf : WellFormed ops s) :
    ∃ s1 b, GradientDescent.runEpoch L ops s = some s1 ∧
      BatchOptimizer.halves L ops s = some b ∧
      (b = true ↔
        epochLoss L ops s.inputs s.outputs s.graph s.setSize > s.lastOverallError) ∧
      s1.learningRate = (if b = true then s.learningRate / 2 else s.learningRate) ∧
      (epochLoss L ops s.inputs s.outputs s.graph s.setSize > s.lastOverallError →
        s1.learningRate = s.learningRate / 2) ∧
      (¬ epochLoss L ops s.inputs s.outputs s.graph s.setSize > s.lastOverallError →
        s1.learningRate = s.learningRate) ∧
      s1.lastOverallError = epochLoss L ops s.inputs s.outputs s.graph s.setSize := by
  refine ⟨epochResult L ops s, _, runEpoch_eq L ops hops s hwf, halves_eq L ops hops s hwf,
    ?_, ?_, ?_, ?_, rfl⟩
  · simp
  · simp [epochResult, nextRate]
  · intro h
    simp [epochResult, nextRate, h]
  · intro h
    simp [epochResult, nextRate, h]

/-- Witness of C3 (amended) on the Scenario A optimiser (`w = 0`, `eta0 = 0.01`). -/
theorem C3_halving_rule_witness :
    (ScenarioA.graph : Graph ℚ (ScenarioA.State ℚ)).Lawful ∧
    WellFormed ScenarioA.graph ScenarioA.demo ∧
    ∃ s1 b, GradientDescent.runEpoch (SquareLoss ℚ) ScenarioA.graph ScenarioA.demo = some s1 ∧
      BatchOptimizer.halves (SquareLoss ℚ) ScenarioA.graph ScenarioA.demo = some b ∧
      (b = true ↔
        epochLoss (SquareLoss ℚ) ScenarioA.graph ScenarioA.demo.inputs ScenarioA.demo.outputs
          ScenarioA.demo.graph ScenarioA.demo.setSize > ScenarioA.demo.lastOverallError) ∧
      s1.learningRate =
        (if b = true then ScenarioA.demo.learningRate / 2 else ScenarioA.demo.learningRate) ∧
      (epochLoss (SquareLoss ℚ) ScenarioA.graph ScenarioA.demo.inputs ScenarioA.demo.outputs
          ScenarioA.demo.graph ScenarioA.demo.setSize > ScenarioA.demo.lastOverallError →
        s1.learningRate = ScenarioA.demo.learningRate / 2) ∧
      (¬ epochLoss (SquareLoss ℚ) ScenarioA.graph ScenarioA.demo.inputs ScenarioA.demo.outputs
          ScenarioA.demo.graph ScenarioA.demo.setSize > ScenarioA.demo.lastOverallError →
        s1.learningRate = ScenarioA.demo.learningRate) ∧
      s1.lastOverallError = epochLoss (SquareLoss ℚ) ScenarioA.graph ScenarioA.demo.inputs
        ScenarioA.demo.outputs ScenarioA.demo.graph ScenarioA.demo.setSize :=
  ⟨ScenarioA.graph_lawful, ScenarioA.demo_wellFormed,
    C3_halving_rule (SquareLoss ℚ) ScenarioA.graph ScenarioA.graph_lawful ScenarioA.demo
      ScenarioA.demo_wellFormed⟩

/-- C4, as stated, fails for a negative initial rate: on Scenario A with `w = 0` and
`setLearningRate(-1)` the rate after the first epoch is `-1/2`, above `eta_0 = -1`. -/
theorem C4_counterexample :
    ∃ s0 s1,
      GradientDescent.runEpochs (SquareLoss ℚ) ScenarioA.graph 0
        (BatchOptimizer.setLearningRate ScenarioA.demo (-1)) = some s0 ∧
      GradientDescent.runEpochs (SquareLoss ℚ) ScenarioA.graph 1
        (BatchOptimizer.setLearningRate ScenarioA.demo (-1)) = some s1 ∧
      s0.learningRate = -1 ∧ s1.learningRate = -1 / 2 ∧ ¬ s1.learningRate ≤ s0.learningRate := by
  have hw : ScenarioA.Wired (BatchOptimizer.setLearningRate ScenarioA.demo (-1)) :=
    ScenarioA.start_wired (-1 : ℚ) (ScenarioA.initial 0)
  obtain ⟨_, hr, _, _⟩ := ScenarioA.epochResult_eq _ hw
  have h1 : (epochResult (SquareLoss ℚ) ScenarioA.graph
      (BatchOptimizer.setLearningRate ScenarioA.demo (-1))).learningRate = -1 / 2 := by
    rw [hr]
    simp [ScenarioA.demo, ScenarioA.start, ScenarioA.initial, BatchOptimizer.setLearningRate,
      BatchOptimizer.setTrainingSet, BatchOptimizer.setGraph, BatchOptimizer.fresh, nextRate]
  refine ⟨_, _, rfl, ?_, rfl, h1, ?_⟩
  · rw [GradientDescent.runEpochs, ScenarioA.runEpoch_start _ hw]
    rfl
  · rw [h1]
    simp only [BatchOptimizer.setLearningRate]
    norm_num

/-- C4 (amended): for every non-negative initial rate given to `setLearningRate`, every
lawful graph, every training set and every `n`, the rate after epoch `n + 1` is at most
the rate after epoch `n`, which is at most `eta_0`. -/
theorem C4_monotone_eta (L : LossT K) (ops : Graph K G) (hops : ops.Lawful)
    (s : BatchOptimizer K G) (hwf : WellFormed ops s) (eta0 : K) (heta : 0 ≤ eta0) (n : Nat) :
    ∃ sn sn1,
      GradientDescent.runEpochs L ops n (BatchOptimizer.setLearningRate s eta0) = some sn ∧
      GradientDescent.runEpochs L ops (n + 1) (BatchOptimizer.setLearningRate s eta0) =
        some sn1 ∧
      sn1.learningRate ≤ sn.learningRate ∧ sn.learningRate ≤ eta0 := by
  have hwf1 : WellFormed ops (BatchOptimizer.setLearningRate s eta0) := hwf
  have hr := epochResult_iterate_rate L ops (BatchOptimizer.setLearningRate s eta0) heta n
  exact ⟨_, _, (runEpochs_eq L ops hops n _ hwf1).1, (runEpochs_eq L ops hops (n + 1) _ hwf1).1,
    hr.2.1, hr.2.2⟩

/-- Witness of C4 (amended): Scenario A, `eta_0 = 1/100`, after 2 and 3 epochs. -/
theorem C4_monotone_eta_witness :
    (ScenarioA.graph : Graph ℚ (ScenarioA.State ℚ)).Lawful ∧
    WellFormed ScenarioA.graph ScenarioA.demo ∧ (0 : ℚ) ≤ 1 / 100 ∧
    ∃ sn sn1,
      GradientDescent.runEpochs (SquareLoss ℚ) ScenarioA.graph 2
        (BatchOptimizer.setLearningRate ScenarioA.demo (1 / 100)) = some sn ∧
      GradientDescent.runEpochs (SquareLoss ℚ) ScenarioA.graph (2 + 1)
        (BatchOptimizer.setLearningRate ScenarioA.demo (1 / 100)) = some sn1 ∧
      sn1.learningRate ≤ sn.learningRate ∧ sn.learningRate ≤ 1 / 100 :=
  ⟨ScenarioA.graph_lawful, ScenarioA.demo_wellFormed, by norm_num,
    C4_monotone_eta (SquareLoss ℚ) ScenarioA.graph ScenarioA.graph_lawful ScenarioA.demo
      ScenarioA.demo_wellFormed (1 / 100) (by norm_num) 2⟩

/-! ## Several epochs -/

/-- C5: `runEpochs M` is `M` successive applications of the single-epoch step:
`runEpochs 0` changes nothing, `runEpochs 1` is `runEpoch`, and `runEpochs (a + b)` is
`runEpochs a` followed by `runEpochs b` on the state it left (learning rate and `E_prev`
included).  On a well-formed state over a lawful graph every one of these runs returns. -/
theorem C5_runEpochs_compose (L : LossT K) (ops : Graph K G) (s : BatchOptimizer K G) :
    GradientDescent.runEpochs L ops 0 s = some s ∧
    GradientDescent.runEpochs L ops 1 s = GradientDescent.runEpoch L ops s ∧
    (∀ M, GradientDescent.runEpochs L ops M s =
      (fun o : Option (BatchOptimizer K G) => o.bind (GradientDescent.runEpoch L ops))^[M]
        (some s)) ∧
    (∀ a b, GradientDescent.runEpochs L ops (a + b) s =
      (GradientDescent.runEpochs L ops a s).bind (GradientDescent.runEpochs L ops b)) ∧
    (ops.Lawful → WellFormed ops s → ∀ a b, ∃ sa sab,
      GradientDescent.runEpochs L ops a s = some sa ∧
      GradientDescent.runEpochs L ops b sa = some sab ∧
      GradientDescent.runEpochs L ops (a + b) s = some sab) := by
  refine ⟨rfl, ?_, fun M => runEpochs_iterate L ops M s,
    fun a b => runEpochs_add L ops a b s, ?_⟩
  · rw [GradientDescent.runEpochs]
    cases GradientDescent.runEpoch L ops s <;> rfl
  · intro hops hwf a b
    have ha := runEpochs_eq L ops hops a s hwf
    have hb := runEpochs_eq L ops hops b _ ha.2
    refine ⟨_, _, ha.1, hb.1, ?_⟩
    rw [runEpochs_add, ha.1, Option.some_bind, hb.1]

/-- Witness of C5: Scenario A, `2 + 3` epochs. -/
theorem C5_runEpochs_compose_witness :
    (ScenarioA.graph : Graph ℚ (ScenarioA.State ℚ)).Lawful ∧
    WellFormed ScenarioA.graph ScenarioA.demo ∧
    ∃ sa sab,
      GradientDescent.runEpochs (SquareLoss ℚ) ScenarioA.graph 2 ScenarioA.demo = some sa ∧
      GradientDescent.runEpochs (SquareLoss ℚ) ScenarioA.graph 3 sa = some sab ∧
      GradientDescent.runEpochs (SquareLoss ℚ) ScenarioA.graph (2 + 3) ScenarioA.demo =
        some sab :=
  ⟨ScenarioA.graph_lawful, ScenarioA.demo_wellFormed,
    (C5_runEpochs_compose (SquareLoss ℚ) ScenarioA.graph ScenarioA.demo).2.2.2.2
      ScenarioA.graph_lawful ScenarioA.demo_wellFormed 2 3⟩

/-! ## The loss -/

/-- C6: over the reals `SquareLoss::loss` is `(y_out - y_expected)^2` and
`SquareLoss::derivative`, which is `2 * (y_out - y_expected)`, is the derivative of
`y ↦ SquareLoss::loss(y, y_expected)` at `y_out`. -/
theorem C6_squareLoss_derivative (yout yexpected : ℝ) :
    SquareLoss.loss yout yexpected = (yout - yexpected) ^ 2 ∧
    SquareLoss.derivative yout yexpected = 2 * (yout - yexpected) ∧
    HasDerivAt (fun y : ℝ => SquareLoss.loss y yexpected)
      (SquareLoss.derivative yout yexpected) yout := by
  refine ⟨?_, rfl, ?_⟩
  · simp only [SquareLoss.loss]
    ring
  · have h : HasDerivAt (fun y : ℝ => y - yexpected) 1 yout :=
      (hasDerivAt_id yout).sub_const yexpected
    have h2 := h.mul h
    have heq : (fun y : ℝ => SquareLoss.loss y yexpected) =
        ((fun y : ℝ => y - yexpected) * fun y : ℝ => y - yexpected) := by
      funext y
      simp [SquareLoss.loss]
    rw [heq]
    convert h2 using 1
    simp only [SquareLoss.derivative]
    ring

/-- C8, as stated, fails: on Scenario A with `w = 0` and `eta_0 = 0.01` the first epoch
has loss `126`, and the second epoch leaves the rate where the first left it, at
`1/200`. -/
theorem C8_counterexample :
    ∃ s1 s2,
      GradientDescent.runEpoch (SquareLoss ℚ) ScenarioA.graph ScenarioA.demo = some s1 ∧
      GradientDescent.runEpoch (SquareLoss ℚ) ScenarioA.graph s1 = some s2 ∧
      ScenarioA.demo.lastOverallError = 0 ∧ s1.lastOverallError = 126 ∧
      s1.learningRate = 1 / 200 ∧ s2.learningRate = 1 / 200 ∧
      s2.learningRate ≠ s1.learningRate / 2 := by
  have h0 : ScenarioA.Tracks ScenarioA.demo ⟨1, 0, 1 / 100⟩ (-3) := by
    have h3 : (ScenarioA.initial (0 : ℚ)).w - 3 = -3 := by norm_num [ScenarioA.initial]
    have ht := ScenarioA.start_tracks (1 / 100 : ℚ) (ScenarioA.initial 0)
    rw [h3] at ht
    exact ht
  have h1 := ScenarioA.tracks_step _ _ _ (by norm_num) h0
  have h2 := ScenarioA.tracks_step _ _ _ (by norm_num) h1
  have e1 : (epochResult (SquareLoss ℚ) ScenarioA.graph ScenarioA.demo).learningRate =
      1 / 200 := by
    rw [h1.2.2.2]
    norm_num [ScenarioA.Coef.step]
  have e2 : (epochResult (SquareLoss ℚ) ScenarioA.graph
      (epochResult (SquareLoss ℚ) ScenarioA.graph ScenarioA.demo)).learningRate = 1 / 200 := by
    rw [h2.2.2.2]
    norm_num [ScenarioA.Coef.step]
  refine ⟨_, _, ScenarioA.runEpoch_start _ h0.1, ScenarioA.runEpoch_start _ h1.1, rfl, ?_,
    e1, e2, ?_⟩
  · rw [h1.2.2.1]
    norm_num [ScenarioA.Coef.step]
  · rw [e1, e2]
    norm_num

/-- C8 (amended): on an optimiser with `E_prev = 0`, whenever the first epoch's loss is
strictly positive the learning rate is halved on that first epoch, before the first
parameter update: every parameter moves by `eta_0 / 2` times its accumulated derivative.
The second epoch halves the rate again when its loss exceeds the first epoch's loss and
leaves it unchanged otherwise. -/
theorem C8_first_epoch_halves (L : LossT K) (ops : Graph K G)
    (hops : ops.Lawful) (s : BatchOptimizer K G) (hwf : WellFormed ops s)
    (hfresh : s.lastOverallError = 0)
    (hE : 0 < epochLoss L ops s.inputs s.outputs s.graph s.setSize) :
    ∃ s1 s2, GradientDescent.runEpoch L ops s = some s1 ∧
      GradientDescent.runEpoch L ops s1 = some s2 ∧
      BatchOptimizer.halves L ops s = some true ∧
      s1.learningRate = s.learningRate / 2 ∧
      (∀ k, k < ops.paramNodesSize s.graph →
        ops.getInput s1.graph k = ops.getInput s.graph k -
          s.learningRate / 2 * epochDeriv L ops s.inputs s.outputs s.graph s.setSize k) ∧
      s1.lastOverallError = epochLoss L ops s.inputs s.outputs s.graph s.setSize ∧
      BatchOptimizer.halves L ops s1 = some (decide
        (epochLoss L ops s1.inputs s1.outputs s1.graph s1.setSize > s1.lastOverallError)) ∧
      s2.learningRate =
        (if epochLoss L ops s1.inputs s1.outputs s1.graph s1.setSize > s1.lastOverallError
          then s1.learningRate / 2 else s1.learningRate) := by
  have hpos : epochLoss L ops s.inputs s.outputs s.graph s.setSize > s.lastOverallError := by
    rw [hfresh]
    exact hE
  have hwf1 := epochResult_wellFormed L ops hops s hwf
  have hr : (epochResult L ops s).learningRate = s.learningRate / 2 := by
    simp [epochResult, nextRate, hpos]
  have hle : s.nParams ≤
      ops.paramNodesSize (graphAfter L ops s.inputs s.outputs s.graph s.setSize) := by
    rw [graphAfter_size L ops hops, hwf.1]
  have hh : BatchOptimizer.halves L ops s = some true := by
    rw [halves_eq L ops hops s hwf]
    simp [hpos]
  refine ⟨epochResult L ops s, epochResult L ops (epochResult L ops s),
    runEpoch_eq L ops hops s hwf, runEpoch_eq L ops hops _ hwf1, hh, hr, ?_, rfl,
    halves_eq L ops hops _ hwf1, rfl⟩
  intro k hk
  have hk1 : k < s.nParams := by rw [hwf.1]; exact hk
  rw [← hr]
  simp only [epochResult]
  rw [updatedGraph_getInput ops hops _ _ _ _ hle, if_pos hk1, graphAfter_getInput L ops hops]

/-- Witness of C8 (amended) on the Scenario A optimiser (`w = 0`, `eta0 = 0.01`). -/
theorem C8_first_epoch_halves_witness :
    (ScenarioA.graph : Graph ℚ (ScenarioA.State ℚ)).Lawful ∧
    WellFormed ScenarioA.graph ScenarioA.demo ∧
    ScenarioA.demo.lastOverallError = 0 ∧
    0 < epochLoss (SquareLoss ℚ) ScenarioA.graph ScenarioA.demo.inputs ScenarioA.demo.outputs
      ScenarioA.demo.graph ScenarioA.demo.setSize ∧
    ∃ s1 s2, GradientDescent.runEpoch (SquareLoss ℚ) ScenarioA.graph ScenarioA.demo = some s1 ∧
      GradientDescent.runEpoch (SquareLoss ℚ) ScenarioA.graph s1 = some s2 ∧
      BatchOptimizer.halves (SquareLoss ℚ) ScenarioA.graph ScenarioA.demo = some true ∧
      s1.learningRate = ScenarioA.demo.learningRate / 2 ∧
      (∀ k, k < ScenarioA.graph.paramNodesSize ScenarioA.demo.graph →
        ScenarioA.graph.getInput s1.graph k = ScenarioA.graph.getInput ScenarioA.demo.graph k -
          ScenarioA.demo.learningRate / 2 * epochDeriv (SquareLoss ℚ) ScenarioA.graph
            ScenarioA.demo.inputs ScenarioA.demo.outputs ScenarioA.demo.graph
            ScenarioA.demo.setSize k) ∧
      s1.lastOverallError = epochLoss (SquareLoss ℚ) ScenarioA.graph ScenarioA.demo.inputs
        ScenarioA.demo.outputs ScenarioA.demo.graph ScenarioA.demo.setSize ∧
      BatchOptimizer.halves (SquareLoss ℚ) ScenarioA.graph s1 = some (decide
        (epochLoss (SquareLoss ℚ) ScenarioA.graph s1.inputs s1.outputs s1.graph s1.setSize >
          s1.lastOverallError)) ∧
      s2.learningRate =
        (if epochLoss (SquareLoss ℚ) ScenarioA.graph s1.inputs s1.outputs s1.graph s1.setSize >
            s1.lastOverallError
          then s1.learningRate / 2 else s1.learningRate) := by
  have hpos : 0 < epochLoss (SquareLoss ℚ) ScenarioA.graph ScenarioA.demo.inputs
      ScenarioA.demo.outputs ScenarioA.demo.graph ScenarioA.demo.setSize := by
    rw [ScenarioA.epochLoss_eq ScenarioA.demo (ScenarioA.start_wired _ _)]
    norm_num [ScenarioA.demo, ScenarioA.start, ScenarioA.initial,
      BatchOptimizer.setLearningRate, BatchOptimizer.setTrainingSet, BatchOptimizer.setGraph,
      BatchOptimizer.fresh]
  exact ⟨ScenarioA.graph_lawful, ScenarioA.demo_wellFormed, rfl, hpos,
    C8_first_epoch_halves (SquareLoss ℚ) ScenarioA.graph
      ScenarioA.graph_lawful ScenarioA.demo ScenarioA.demo_wellFormed rfl hpos⟩

/-! ## Scenario A, 200 epochs from `eta_0 = 0.01` -/

/-- C9: Scenario A with `SquareLoss` and `eta_0 = 0.01` on a new optimiser: for every
initial weight with `|w - 3| ≤ 3`, `runEpochs(200)` returns and leaves a weight with
`|w - 3| ≤ 10⁻⁴`. -/
theorem C9_scenarioA_converges (g : ScenarioA.State K) (h : |g.w - 3| ≤ 3) :
    ∃ s, GradientDescent.runEpochs (SquareLoss K) ScenarioA.graph 200
        (ScenarioA.start (1 / 100) g) = some s ∧
      |s.graph.w - 3| ≤ 1 / 10 ^ 4 := by
  have hw := ScenarioA.start_wired (1 / 100 : K) g
  have hs : ScenarioA.Settling (ScenarioA.start (1 / 100 : K) g) := Or.inl ⟨rfl, rfl⟩
  obtain ⟨_, _, hb⟩ := ScenarioA.settling_iterate _ hw hs 200
  refine ⟨_, (runEpochs_eq (SquareLoss K) ScenarioA.graph ScenarioA.graph_lawful 200 _
    (ScenarioA.wired_wellFormed _ hw)).1, le_trans hb ?_⟩
  have hg : (ScenarioA.start (1 / 100 : K) g).graph.w = g.w := rfl
  rw [hg]
  have hp : (0 : K) ≤ (43 / 50) ^ 200 := by positivity
  have hnum : ((43 : K) / 50) ^ 200 * 3 ≤ 1 / 10 ^ 4 := by norm_num
  exact le_trans (mul_le_mul_of_nonneg_left h hp) hnum

/-- Witness of C9: the initial weight `w = 0`. -/
theorem C9_scenarioA_converges_witness :
    |(ScenarioA.initial (0 : ℚ)).w - 3| ≤ 3 ∧
    ∃ s, GradientDescent.runEpochs (SquareLoss ℚ) ScenarioA.graph 200
        (ScenarioA.start (1 / 100) (ScenarioA.initial 0)) = some s ∧
      |s.graph.w - 3| ≤ 1 / 10 ^ 4 :=
  ⟨by norm_num [ScenarioA.initial],
    C9_scenarioA_converges (ScenarioA.initial 0) (by norm_num [ScenarioA.initial])⟩

/-! ## Scenario D, ten epochs from `eta_0 = 10` -/

/-- C10, as stated, fails at the initial weight `w = 3`, which satisfies `|w - 3| ≤ 3`:
every epoch has loss `0`, the rate is never halved and is still `10` after ten epochs. -/
theorem C10_counterexample :
    |(ScenarioA.initial (3 : ℚ)).w - 3| ≤ 3 ∧
    ∃ s, GradientDescent.runEpochs (SquareLoss ℚ) ScenarioA.graph 10
        (ScenarioA.start 10 (ScenarioA.initial 3)) = some s ∧
      halvingCount (SquareLoss ℚ) ScenarioA.graph 10
        (ScenarioA.start 10 (ScenarioA.initial 3)) = 0 ∧
      s.learningRate = 10 ∧ ¬ s.learningRate ≤ 10 / 16 := by
  have hw := ScenarioA.start_wired (10 : ℚ) (ScenarioA.initial 3)
  have h0 : ScenarioA.Tracks (ScenarioA.start (10 : ℚ) (ScenarioA.initial 3)) ⟨0, 0, 10⟩ 1 := by
    refine ⟨hw, ?_, ?_, rfl⟩
    · simp [ScenarioA.start, ScenarioA.initial, BatchOptimizer.setLearningRate,
        BatchOptimizer.setTrainingSet, BatchOptimizer.setGraph, BatchOptimizer.fresh]
    · simp [ScenarioA.start, ScenarioA.initial, BatchOptimizer.setLearningRate,
        BatchOptimizer.setTrainingSet, BatchOptimizer.setGraph, BatchOptimizer.fresh]
  have h10 := ScenarioA.tracks_iterate _ _ _ one_ne_zero h0 10
  have hrate : ((epochResult (SquareLoss ℚ) ScenarioA.graph)^[10]
      (ScenarioA.start (10 : ℚ) (ScenarioA.initial 3))).learningRate = 10 := by
    rw [h10.2.2.2, (ScenarioA.coef_run_fixed ℚ).1]
  refine ⟨by norm_num [ScenarioA.initial], _,
    (runEpochs_eq (SquareLoss ℚ) ScenarioA.graph ScenarioA.graph_lawful 10 _
      (ScenarioA.wired_wellFormed _ hw)).1, ?_, hrate, ?_⟩
  · rw [ScenarioA.halvingCount_tracks _ _ _ one_ne_zero h0 10, (ScenarioA.coef_run_fixed ℚ).2]
  · rw [hrate]
    norm_num

/-- C10 (amended): Scenario A with `SquareLoss` and `eta_0 = 10` on a new optimiser: for
every initial weight `w ≠ 3` (in particular when `0 < |w - 3| ≤ 3`) the rate is halved
at least four times (in fact eight times) during the first ten epochs, and the rate
after the tenth epoch, `10 / 2^8`, is at most `eta_0 / 16`. -/
theorem C10_scenarioD_halvings (g : ScenarioA.State K) (hne : g.w ≠ 3) :
    ∃ s, GradientDescent.runEpochs (SquareLoss K) ScenarioA.graph 10
        (ScenarioA.start 10 g) = some s ∧
      4 ≤ halvingCount (SquareLoss K) ScenarioA.graph 10 (ScenarioA.start 10 g) ∧
      s.learningRate ≤ 10 / 16 ∧
      halvingCount (SquareLoss K) ScenarioA.graph 10 (ScenarioA.start 10 g) = 8 ∧
      s.learningRate = 10 / 2 ^ 8 := by
  have he : g.w - 3 ≠ 0 := sub_ne_zero.mpr hne
  have h0 := ScenarioA.start_tracks (10 : K) g
  have h10 := ScenarioA.tracks_iterate _ _ _ he h0 10
  have hrate : ((epochResult (SquareLoss K) ScenarioA.graph)^[10]
      (ScenarioA.start (10 : K) g)).learningRate = 10 / 2 ^ 8 := by
    rw [h10.2.2.2, (ScenarioA.coef_run_large K).1]
  have hcount : halvingCount (SquareLoss K) ScenarioA.graph 10 (ScenarioA.start 10 g) = 8 := by
    rw [ScenarioA.halvingCount_tracks _ _ _ he h0 10, (ScenarioA.coef_run_large K).2]
  refine ⟨_, (runEpochs_eq (SquareLoss K) ScenarioA.graph ScenarioA.graph_lawful 10 _
    (ScenarioA.wired_wellFormed _ h0.1)).1, ?_, ?_, hcount, hrate⟩
  · rw [hcount]
    norm_num
  · rw [hrate]
    norm_num

/-- Witness of C10 (amended): the initial weight `w = 0`. -/
theorem C10_scenarioD_halvings_witness :
    (ScenarioA.initial (0 : ℚ)).w ≠ 3 ∧
    ∃ s, GradientDescent.runEpochs (SquareLoss ℚ) ScenarioA.graph 10
        (ScenarioA.start 10 (ScenarioA.initial 0)) = some s ∧
      4 ≤ halvingCount (SquareLoss ℚ) ScenarioA.graph 10
        (ScenarioA.start 10 (ScenarioA.initial 0)) ∧
      s.learningRate ≤ 10 / 16 ∧
      halvingCount (SquareLoss ℚ) ScenarioA.graph 10
        (ScenarioA.start 10 (ScenarioA.initial 0)) = 8 ∧
      s.learningRate = 10 / 2 ^ 8 :=
  ⟨by norm_num [ScenarioA.initial],
    C10_scenarioD_halvings (ScenarioA.initial 0) (by norm_num [ScenarioA.initial])⟩

/-! ## The first epoch and the backoff bound -/

theorem epochLoss_pos_of_misfit (L : LossT K) (hnn : ∀ a b, 0 ≤ L.loss a b)
    (hzero : ∀ a b, L.loss a b = 0 → a = b) (ops : Graph K G) (inp : List (List K))
    (out : List K) (g : G) (n : Nat)
    (h : ∃ j, j < n ∧ outputAt L ops inp out g j ≠ out.getD j 0) :
    0 < epochLoss L ops inp out g n := by
  obtain ⟨j, hj, hne⟩ := h
  unfold epochLoss
  apply Finset.sum_pos'
  · intro i _
    exact hnn _ _
  · refine ⟨j, Finset.mem_range.mpr hj, ?_⟩
    exact lt_of_le_of_ne (hnn _ _) (fun h0 => hne (hzero _ _ h0.symm))

theorem squareLoss_eq_zero (a b : K) (h : SquareLoss.loss a b = 0) : a = b := by
  unfold SquareLoss.loss at h
  exact sub_eq_zero.mp (mul_self_eq_zero.mp h)

/-- C13, as stated, fails in `float` arithmetic: with weight `0`, the example
`(1, 2^-100)` and `eta_0 = 0.5` the output `0` misses the target, but the squared error
`2^-200` underflows to `0`, so the first epoch does not halve: it leaves the rate `0.5`,
stores the loss `0` and moves the weight by `eta_0` (not `eta_0 / 2`) times the
accumulated derivative `-2^-99`, to `2^-100`. -/
theorem C13_counterexample :
    (BatchOptimizer.forwardPass ScenarioA.graph
      (F32.trainer (F32.fin 0) (F32.fin 1) (F32.fin (1 / 1267650600228229401496703205376))
        (F32.fin (1 / 2))) 0).map Prod.fst = some (F32.fin 0) ∧
    F32.fin 0 ≠ F32.fin (1 / 1267650600228229401496703205376) ∧
    SquareLoss.loss (F32.fin 0) (F32.fin (1 / 1267650600228229401496703205376)) = F32.fin 0 ∧
    BatchOptimizer.halves (SquareLoss F32) ScenarioA.graph
      (F32.trainer (F32.fin 0) (F32.fin 1) (F32.fin (1 / 1267650600228229401496703205376))
        (F32.fin (1 / 2))) = some false ∧
    (GradientDescent.runEpoch (SquareLoss F32) ScenarioA.graph
      (F32.trainer (F32.fin 0) (F32.fin 1) (F32.fin (1 / 1267650600228229401496703205376))
        (F32.fin (1 / 2)))).map
      (fun s => (s.learningRate, s.lastOverallError, s.paramDerivs,
        ScenarioA.graph.getInput s.graph 0)) =
      some (F32.fin (1 / 2), F32.fin 0, [F32.fin (-(1 / 633825300114114700748351602688))],
        F32.fin (1 / 1267650600228229401496703205376)) ∧
    F32.fin (1 / 2) ≠ F32.fin (1 / 2) / 2 ∧
    F32.fin 0 - F32.fin (1 / 2) * F32.fin (-(1 / 633825300114114700748351602688)) =
      F32.fin (1 / 1267650600228229401496703205376) ∧
    F32.fin 0 - F32.fin (1 / 2) / 2 * F32.fin (-(1 / 633825300114114700748351602688)) ≠
      F32.fin (1 / 1267650600228229401496703205376) := by
  decide!

/-- C13 (amended): on an optimiser with `E_prev = 0` the first epoch executes
`learningRate /= 2` if and only if its summed loss is strictly positive, and the rate it
leaves is `eta / 2` in that case and `eta` otherwise.  Over exact arithmetic, for a loss
that is never negative and vanishes only on a perfect fit, such as `SquareLoss`, an
imperfect initial fit makes the very first update use `eta_0 / 2`. -/
theorem C13_first_epoch_halving (L : LossT K) (ops : Graph K G) (hops : ops.Lawful)
    (s : BatchOptimizer K G) (hwf : WellFormed ops s) (hfresh : s.lastOverallError = 0) :
    ∃ s1 b, GradientDescent.runEpoch L ops s = some s1 ∧
      BatchOptimizer.halves L ops s = some b ∧
      (b = true ↔ 0 < epochLoss L ops s.inputs s.outputs s.graph s.setSize) ∧
      s1.learningRate = (if b = true then s.learningRate / 2 else s.learningRate) ∧
      ((∀ x y, 0 ≤ L.loss x y) → (∀ x y, L.loss x y = 0 → x = y) →
        (∃ j, j < s.setSize ∧
          outputAt L ops s.inputs s.outputs s.graph j ≠ s.outputs.getD j 0) →
        b = true ∧ s1.learningRate = s.learningRate / 2 ∧
        ∀ k, k < ops.paramNodesSize s.graph →
          ops.getInput s1.graph k = ops.getInput s.graph k -
            s.learningRate / 2 * epochDeriv L ops s.inputs s.outputs s.graph s.setSize k) := by
  have hrate : (epochResult L ops s).learningRate =
      if 0 < epochLoss L ops s.inputs s.outputs s.graph s.setSize
        then s.learningRate / 2 else s.learningRate := by
    simp only [epochResult, nextRate, hfresh, gt_iff_lt]
  have hle : s.nParams ≤
      ops.paramNodesSize (graphAfter L ops s.inputs s.outputs s.graph s.setSize) := by
    rw [graphAfter_size L ops hops, hwf.1]
  have hhalves := halves_eq L ops hops s hwf
  rw [hfresh] at hhalves
  refine ⟨epochResult L ops s, _, runEpoch_eq L ops hops s hwf, hhalves, ?_, ?_, ?_⟩
  · simp
  · rw [hrate]
    simp
  · intro hnn hzero hmis
    have hpos := epochLoss_pos_of_misfit L hnn hzero ops _ _ _ _ hmis
    have hr : (epochResult L ops s).learningRate = s.learningRate / 2 := by
      rw [hrate, if_pos hpos]
    refine ⟨by simpa using hpos, hr, ?_⟩
    intro k hk
    have hk1 : k < s.nParams := by rw [hwf.1]; exact hk
    rw [← hr]
    simp only [epochResult]
    rw [updatedGraph_getInput ops hops _ _ _ _ hle, if_pos hk1,
      graphAfter_getInput L ops hops]

/-- Witness of C13 on the Scenario A optimiser (`w = 0`, `eta0 = 0.01`), whose first
example is not fitted. -/
theorem C13_first_epoch_halving_witness :
    (ScenarioA.graph : Graph ℚ (ScenarioA.State ℚ)).Lawful ∧
    WellFormed ScenarioA.graph ScenarioA.demo ∧ ScenarioA.demo.lastOverallError = 0 ∧
    (∀ x y : ℚ, 0 ≤ (SquareLoss ℚ).loss x y) ∧
    (∀ x y : ℚ, (SquareLoss ℚ).loss x y = 0 → x = y) ∧
    (∃ j, j < ScenarioA.demo.setSize ∧
      outputAt (SquareLoss ℚ) ScenarioA.graph ScenarioA.demo.inputs ScenarioA.demo.outputs
        ScenarioA.demo.graph j ≠ ScenarioA.demo.outputs.getD j 0) ∧
    ∃ s1, GradientDescent.runEpoch (SquareLoss ℚ) ScenarioA.graph ScenarioA.demo = some s1 ∧
      BatchOptimizer.halves (SquareLoss ℚ) ScenarioA.graph ScenarioA.demo = some true ∧
      s1.learningRate = ScenarioA.demo.learningRate / 2 ∧
      ∀ k, k < ScenarioA.graph.paramNodesSize ScenarioA.demo.graph →
        ScenarioA.graph.getInput s1.graph k = ScenarioA.graph.getInput ScenarioA.demo.graph k -
          ScenarioA.demo.learningRate / 2 * epochDeriv (SquareLoss ℚ) ScenarioA.graph
            ScenarioA.demo.inputs ScenarioA.demo.outputs ScenarioA.demo.graph
            ScenarioA.demo.setSize k := by
  have hmis : ∃ j, j < ScenarioA.demo.setSize ∧
      outputAt (SquareLoss ℚ) ScenarioA.graph ScenarioA.demo.inputs ScenarioA.demo.outputs
        ScenarioA.demo.graph j ≠ ScenarioA.demo.outputs.getD j 0 := by
    refine ⟨0, by decide, ?_⟩
    simp [outputAt, graphAfter, forwardGraph, ScenarioA.graph, ScenarioA.demo, ScenarioA.start,
      ScenarioA.initial, ScenarioA.inputs, ScenarioA.outputs, BatchOptimizer.setLearningRate,
      BatchOptimizer.setTrainingSet, BatchOptimizer.setGraph, BatchOptimizer.fresh]
  obtain ⟨s1, b, hrun, hb, _, _, hlast⟩ := C13_first_epoch_halving (SquareLoss ℚ)
    ScenarioA.graph ScenarioA.graph_lawful ScenarioA.demo ScenarioA.demo_wellFormed rfl
  obtain ⟨hbt, hr, hupd⟩ := hlast squareLoss_nonneg squareLoss_eq_zero hmis
  rw [hbt] at hb
  exact ⟨ScenarioA.graph_lawful, ScenarioA.demo_wellFormed, rfl, squareLoss_nonneg,
    squareLoss_eq_zero, hmis, s1, hrun, hb, hr, hupd⟩

/-- The rate after `n` epochs is the initial rate divided by two once for every epoch
whose loss exceeded the stored one. -/
theorem runEpochs_rate (L : LossT K) (ops : Graph K G) (hops : ops.Lawful) (n : Nat)
    (s : BatchOptimizer K G) (hwf : WellFormed ops s) :
    ((epochResult L ops)^[n] s).learningRate = s.learningRate / 2 ^ lossRaises L ops n s ∧
      lossRaises L ops n s ≤ n := by
  induction n generalizing s with
  | zero => simp [lossRaises]
  | succ n ih =>
    obtain ⟨h1, h2⟩ := ih (epochResult L ops s) (epochResult_wellFormed L ops hops s hwf)
    rw [Function.iterate_succ_apply, h1, lossRaises, runEpoch_eq L ops hops s hwf]
    simp only
    by_cases hE : epochLoss L ops s.inputs s.outputs s.graph s.setSize > s.lastOverallError
    · have hr : (epochResult L ops s).learningRate = s.learningRate / 2 := by
        simp [epochResult, nextRate, hE]
      have hl : (epochResult L ops s).lastOverallError > s.lastOverallError := hE
      rw [hr, if_pos hl]
      refine ⟨?_, by omega⟩
      rw [pow_add, pow_one, div_div]
    · have hr : (epochResult L ops s).learningRate = s.learningRate := by
        simp [epochResult, nextRate, hE]
      have hl : ¬ (epochResult L ops s).lastOverallError > s.lastOverallError := hE
      rw [hr, if_neg hl, Nat.zero_add]
      exact ⟨rfl, by omega⟩

/-- C14: a run of `n` epochs started with rate `eta_0` returns and leaves the rate
`eta_0 / 2^h`, where `h ≤ n` counts the epochs whose loss strictly exceeded the loss
stored before them; if `eta_0 > 0` the rate stays strictly positive and lies in
`[eta_0 / 2^n, eta_0]`. -/
theorem C14_backoff_bound (L : LossT K) (ops : Graph K G) (hops : ops.Lawful) (n : Nat)
    (s : BatchOptimizer K G) (hwf : WellFormed ops s) :
    ∃ sn, GradientDescent.runEpochs L ops n s = some sn ∧
      sn.learningRate = s.learningRate / 2 ^ lossRaises L ops n s ∧
      lossRaises L ops n s ≤ n ∧
      (0 < s.learningRate →
        0 < sn.learningRate ∧ s.learningRate / 2 ^ n ≤ sn.learningRate ∧
          sn.learningRate ≤ s.learningRate) := by
  obtain ⟨hr, hh⟩ := runEpochs_rate L ops hops n s hwf
  refine ⟨_, (runEpochs_eq L ops hops n s hwf).1, hr, hh, ?_⟩
  intro hpos
  rw [hr]
  have h2 : (0 : K) < 2 ^ lossRaises L ops n s := by positivity
  have h2n : (0 : K) < 2 ^ n := by positivity
  have hmono : (2 : K) ^ lossRaises L ops n s ≤ 2 ^ n :=
    pow_le_pow_right₀ (by norm_num) hh
  have hone : (1 : K) ≤ 2 ^ lossRaises L ops n s := one_le_pow₀ (by norm_num)
  refine ⟨div_pos hpos h2, ?_, ?_⟩
  · exact div_le_div_of_nonneg_left hpos.le h2 hmono
  · exact div_le_self hpos.le hone

/-- Witness of C14: Scenario A (`w = 0`, `eta_0 = 0.01`), five epochs. -/
theorem C14_backoff_bound_witness :
    (ScenarioA.graph : Graph ℚ (ScenarioA.State ℚ)).Lawful ∧
    WellFormed ScenarioA.graph ScenarioA.demo ∧ 0 < ScenarioA.demo.learningRate ∧
    ∃ sn, GradientDescent.runEpochs (SquareLoss ℚ) ScenarioA.graph 5 ScenarioA.demo = some sn ∧
      sn.learningRate =
        ScenarioA.demo.learningRate /
          2 ^ lossRaises (SquareLoss ℚ) ScenarioA.graph 5 ScenarioA.demo ∧
      lossRaises (SquareLoss ℚ) ScenarioA.graph 5 ScenarioA.demo ≤ 5 ∧
      (0 < ScenarioA.demo.learningRate →
        0 < sn.learningRate ∧ ScenarioA.demo.learningRate / 2 ^ 5 ≤ sn.learningRate ∧
          sn.learningRate ≤ ScenarioA.demo.learningRate) :=
  ⟨ScenarioA.graph_lawful, ScenarioA.demo_wellFormed,
    by norm_num [ScenarioA.demo, ScenarioA.start, BatchOptimizer.setLearningRate],
    C14_backoff_bound (SquareLoss ℚ) ScenarioA.graph ScenarioA.graph_lawful 5 ScenarioA.demo
      ScenarioA.demo_wellFormed⟩

/-! ## A perfect fit -/

/-- An index outside a borrowed array is reported: with `setSize` one more than the
number of inputs the epoch has no defined result. -/
theorem runEpoch_short_inputs (L : LossT K) (ops : Graph K G) (hops : ops.Lawful)
    (s : BatchOptimizer K G) (hsize : s.nParams = ops.paramNodesSize s.graph)
    (hlen : s.paramDerivs.length = s.nParams) (hin : s.setSize = s.inputs.length + 1)
    (hout : s.inputs.length ≤ s.outputs.length) :
    GradientDescent.runEpoch L ops s = none := by
  unfold GradientDescent.runEpoch BatchOptimizer.runEpoch
  rw [memsetZero_eq _ _ hlen]
  simp only [hin]
  rw [forRange_succ, forRange_exampleStep L ops hops
    { s with paramDerivs := List.replicate s.nParams 0, setSize := s.inputs.length + 1 }
    hsize rfl s.inputs.length (le_refl _) hout]
  simp [BatchOptimizer.exampleStep, BatchOptimizer.forwardPass]

/-- C16: after `setGraph` and `setTrainingSet`, if the graph still has as many parameters
as `setGraph` saw and the borrowed arrays hold `setSize` entries, the cached count and
the size of `paramDerivs` are the parameter count, and `runEpoch` (with `updateParams`)
and every `runEpochs` return: no index into `paramDerivs`, `paramNodes`, `inputs` or
`outputs` leaves its container. -/
theorem C16_index_safety (L : LossT K) (ops : Graph K G) (hops : ops.Lawful)
    (s0 : BatchOptimizer K G) (g0 g : G) (inp : List (List K)) (out : List K) (n : Nat)
    (hsame : ops.paramNodesSize g = ops.paramNodesSize g0)
    (hin : n ≤ inp.length) (hout : n ≤ out.length) :
    (BatchOptimizer.setGraph ops s0 g0).nParams = ops.paramNodesSize g0 ∧
    (BatchOptimizer.setGraph ops s0 g0).paramDerivs.length = ops.paramNodesSize g0 ∧
    (∃ s1, GradientDescent.runEpoch L ops
      (BatchOptimizer.withGraph
        (BatchOptimizer.setTrainingSet (BatchOptimizer.setGraph ops s0 g0) inp out n) g) = some s1) ∧
    (∃ s1, GradientDescent.updateParams ops
      (BatchOptimizer.withGraph
        (BatchOptimizer.setTrainingSet (BatchOptimizer.setGraph ops s0 g0) inp out n) g) = some s1) ∧
    ∀ M, ∃ sM, GradientDescent.runEpochs L ops M
      (BatchOptimizer.withGraph
        (BatchOptimizer.setTrainingSet (BatchOptimizer.setGraph ops s0 g0) inp out n) g) = some sM := by
  have hlen : (BatchOptimizer.setGraph ops s0 g0).paramDerivs.length =
      ops.paramNodesSize g0 := by
    simp only [BatchOptimizer.setGraph, resize, List.length_append, List.length_take,
      List.length_replicate]
    omega
  have hwf : WellFormed ops
      (BatchOptimizer.withGraph
        (BatchOptimizer.setTrainingSet (BatchOptimizer.setGraph ops s0 g0) inp out n) g) := ⟨hsame.symm, hlen, hin, hout⟩
  refine ⟨rfl, hlen, ⟨_, runEpoch_eq L ops hops _ hwf⟩, ?_, ?_⟩
  · have hmap : (BatchOptimizer.setGraph ops s0 g0).paramDerivs =
        (List.range (ops.paramNodesSize g0)).map
          (fun k => (BatchOptimizer.setGraph ops s0 g0).paramDerivs.getD k 0) := by
      apply List.ext_getElem?
      intro k
      by_cases hk : k < ops.paramNodesSize g0
      · have hk1 : k < (BatchOptimizer.setGraph ops s0 g0).paramDerivs.length := by
          rw [hlen]; exact hk
        simp [List.getElem?_range hk, List.getElem?_eq_getElem hk1]
      · have h1 : (BatchOptimizer.setGraph ops s0 g0).paramDerivs.length ≤ k := by
          rw [hlen]; omega
        have h2 : (List.range (ops.paramNodesSize g0)).length ≤ k := by simpa using hk
        simp [List.getElem?_eq_none h1, List.getElem?_eq_none h2]
    exact ⟨_, forRange_updateParam ops hops
      (BatchOptimizer.withGraph
        (BatchOptimizer.setTrainingSet (BatchOptimizer.setGraph ops s0 g0) inp out n) g) _
      (ops.paramNodesSize g0) (le_of_eq hsame.symm) hmap (ops.paramNodesSize g)
      (le_of_eq hsame)⟩
  · intro M
    exact ⟨_, (runEpochs_eq L ops hops M _ hwf).1⟩

/-- Witness of C16: the Scenario A graph and training set. -/
theorem C16_index_safety_witness :
    (ScenarioA.graph : Graph ℚ (ScenarioA.State ℚ)).Lawful ∧
    ScenarioA.graph.paramNodesSize (ScenarioA.initial (1 : ℚ)) =
      ScenarioA.graph.paramNodesSize (ScenarioA.initial (0 : ℚ)) ∧
    3 ≤ (ScenarioA.inputs : List (List ℚ)).length ∧
    3 ≤ (ScenarioA.outputs : List ℚ).length ∧
    ∀ M, ∃ sM, GradientDescent.runEpochs (SquareLoss ℚ) ScenarioA.graph M
      (BatchOptimizer.withGraph
        (BatchOptimizer.setTrainingSet
          (BatchOptimizer.setGraph ScenarioA.graph
            (BatchOptimizer.fresh (ScenarioA.initial 0)) (ScenarioA.initial 0))
          ScenarioA.inputs ScenarioA.outputs 3)
        (ScenarioA.initial 1)) = some sM :=
  ⟨ScenarioA.graph_lawful, rfl, by simp [ScenarioA.inputs], by simp [ScenarioA.outputs],
    (C16_index_safety (SquareLoss ℚ) ScenarioA.graph ScenarioA.graph_lawful
      (BatchOptimizer.fresh (ScenarioA.initial 0)) (ScenarioA.initial 0) (ScenarioA.initial 1)
      ScenarioA.inputs ScenarioA.outputs 3 rfl (by simp [ScenarioA.inputs])
      (by simp [ScenarioA.outputs])).2.2.2.2⟩

/-! ## The accumulator is the gradient of the epoch loss -/

/-- C11: over the reals, let the output for example `j`, as a function of the value `p`
written into parameter `k`, have derivative `o' j` at the value the parameter holds, and
let `backProp(0, seed)` leave `seed * o' j` in the slot of parameter `k`.  Then the epoch
with `SquareLoss` returns and the accumulator entry `d[k]` is the derivative in `p` of the
epoch loss at the held value; the update moves the parameter by `-eta * d[k]`. -/
theorem C11_accumulator_is_gradient {G : Type} (ops : Graph ℝ G) (hops : ops.Lawful)
    (s : BatchOptimizer ℝ G) (hwf : WellFormed ops s) (k : Nat) (hk : k < s.nParams)
    (o' : Nat → ℝ)
    (hout : ∀ j, j < s.setSize →
      HasDerivAt
        (fun p => outputAt (SquareLoss ℝ) ops s.inputs s.outputs (ops.setInput s.graph k p) j)
        (o' j) (ops.getInput s.graph k))
    (hcur : ∀ j, j < s.setSize →
      outputAt (SquareLoss ℝ) ops s.inputs s.outputs
          (ops.setInput s.graph k (ops.getInput s.graph k)) j =
        outputAt (SquareLoss ℝ) ops s.inputs s.outputs s.graph j)
    (hbp : ∀ j, j < s.setSize → ∀ seed,
      ops.getDerivative
        (ops.backProp
          (forwardGraph ops (graphAfter (SquareLoss ℝ) ops s.inputs s.outputs s.graph j)
            (s.inputs.getD j [])) 0 seed) k 0 = seed * o' j) :
    ∃ s1 d, GradientDescent.runEpoch (SquareLoss ℝ) ops s = some s1 ∧
      s1.paramDerivs[k]? = some d ∧
      HasDerivAt
        (fun p => epochLoss (SquareLoss ℝ) ops s.inputs s.outputs (ops.setInput s.graph k p)
          s.setSize)
        d (ops.getInput s.graph k) ∧
      ops.getInput s1.graph k = ops.getInput s.graph k - s1.learningRate * d := by
  have hle : s.nParams ≤ ops.paramNodesSize
      (graphAfter (SquareLoss ℝ) ops s.inputs s.outputs s.graph s.setSize) := by
    rw [graphAfter_size (SquareLoss ℝ) ops hops, hwf.1]
  refine ⟨epochResult (SquareLoss ℝ) ops s,
    epochDeriv (SquareLoss ℝ) ops s.inputs s.outputs s.graph s.setSize k,
    runEpoch_eq (SquareLoss ℝ) ops hops s hwf, ?_, ?_, ?_⟩
  · simp [epochResult, List.getElem?_range hk]
  · have hterm : ∀ j ∈ Finset.range s.setSize,
        HasDerivAt
          (fun p => (SquareLoss ℝ).loss
            (outputAt (SquareLoss ℝ) ops s.inputs s.outputs (ops.setInput s.graph k p) j)
            (s.outputs.getD j 0))
          (ops.getDerivative
            (graphAfter (SquareLoss ℝ) ops s.inputs s.outputs s.graph (j + 1)) k 0)
          (ops.getInput s.graph k) := by
      intro j hj
      have hj1 := Finset.mem_range.mp hj
      have hsub := (hout j hj1).sub_const (s.outputs.getD j 0)
      have hmul := hsub.mul hsub
      have hval : ops.getDerivative
          (graphAfter (SquareLoss ℝ) ops s.inputs s.outputs s.graph (j + 1)) k 0 =
          2 * (outputAt (SquareLoss ℝ) ops s.inputs s.outputs s.graph j -
            s.outputs.getD j 0) * o' j := by
        simp only [graphAfter]
        rw [hbp j hj1]
        rfl
      rw [hval]
      convert hmul using 1
      rw [hcur j hj1]
      ring
    exact HasDerivAt.sum hterm
  · simp only [epochResult]
    rw [updatedGraph_getInput ops hops _ _ _ _ hle, if_pos hk,
      graphAfter_getInput (SquareLoss ℝ) ops hops]

theorem ScenarioA.outputAt_setInput (w eta p : ℝ) (j : Nat) (hj : j < 3) :
    outputAt (SquareLoss ℝ) ScenarioA.graph (ScenarioA.start eta (ScenarioA.initial w)).inputs
      (ScenarioA.start eta (ScenarioA.initial w)).outputs
      (ScenarioA.graph.setInput (ScenarioA.start eta (ScenarioA.initial w)).graph 0 p) j =
      p * ((j : ℝ) + 1) := by
  interval_cases j <;>
    norm_num [outputAt, graphAfter, forwardGraph, ScenarioA.graph, ScenarioA.start,
      ScenarioA.initial, ScenarioA.inputs, ScenarioA.outputs, BatchOptimizer.setLearningRate,
      BatchOptimizer.setTrainingSet, BatchOptimizer.setGraph, BatchOptimizer.fresh]

theorem ScenarioA.outputAt_start (w eta : ℝ) (j : Nat) (hj : j < 3) :
    outputAt (SquareLoss ℝ) ScenarioA.graph (ScenarioA.start eta (ScenarioA.initial w)).inputs
      (ScenarioA.start eta (ScenarioA.initial w)).outputs
      (ScenarioA.start eta (ScenarioA.initial w)).graph j = w * ((j : ℝ) + 1) := by
  interval_cases j <;>
    norm_num [outputAt, graphAfter, forwardGraph, ScenarioA.graph, ScenarioA.start,
      ScenarioA.initial, ScenarioA.inputs, ScenarioA.outputs, BatchOptimizer.setLearningRate,
      BatchOptimizer.setTrainingSet, BatchOptimizer.setGraph, BatchOptimizer.fresh]

theorem ScenarioA.backProp_slot (w eta seed : ℝ) (j : Nat) (hj : j < 3) :
    ScenarioA.graph.getDerivative
      (ScenarioA.graph.backProp
        (forwardGraph ScenarioA.graph
          (graphAfter (SquareLoss ℝ) ScenarioA.graph
            (ScenarioA.start eta (ScenarioA.initial w)).inputs
            (ScenarioA.start eta (ScenarioA.initial w)).outputs
            (ScenarioA.start eta (ScenarioA.initial w)).graph j)
          ((ScenarioA.start eta (ScenarioA.initial w)).inputs.getD j [])) 0 seed) 0 0 =
      seed * ((j : ℝ) + 1) := by
  interval_cases j <;>
    norm_num [graphAfter, forwardGraph, ScenarioA.graph, ScenarioA.start,
      ScenarioA.initial, ScenarioA.inputs, ScenarioA.outputs, BatchOptimizer.setLearningRate,
      BatchOptimizer.setTrainingSet, BatchOptimizer.setGraph, BatchOptimizer.fresh]

/-- Witness of C11: Scenario A over the reals (`w = 0`, `eta_0 = 0.01`), where the output
for example `j` is `p * x_j` and `backProp(0, seed)` leaves `seed * x_j`. -/
theorem C11_accumulator_is_gradient_witness :
    (ScenarioA.graph : Graph ℝ (ScenarioA.State ℝ)).Lawful ∧
    WellFormed ScenarioA.graph (ScenarioA.start (1 / 100 : ℝ) (ScenarioA.initial 0)) ∧
    0 < (ScenarioA.start (1 / 100 : ℝ) (ScenarioA.initial 0)).nParams ∧
    ∃ s1 d, GradientDescent.runEpoch (SquareLoss ℝ) ScenarioA.graph
        (ScenarioA.start (1 / 100 : ℝ) (ScenarioA.initial 0)) = some s1 ∧
      s1.paramDerivs[0]? = some d ∧
      HasDerivAt
        (fun p => epochLoss (SquareLoss ℝ) ScenarioA.graph
          (ScenarioA.start (1 / 100 : ℝ) (ScenarioA.initial 0)).inputs
          (ScenarioA.start (1 / 100 : ℝ) (ScenarioA.initial 0)).outputs
          (ScenarioA.graph.setInput
            (ScenarioA.start (1 / 100 : ℝ) (ScenarioA.initial 0)).graph 0 p)
          (ScenarioA.start (1 / 100 : ℝ) (ScenarioA.initial 0)).setSize)
        d (ScenarioA.graph.getInput
          (ScenarioA.start (1 / 100 : ℝ) (ScenarioA.initial 0)).graph 0) ∧
      ScenarioA.graph.getInput s1.graph 0 =
        ScenarioA.graph.getInput (ScenarioA.start (1 / 100 : ℝ) (ScenarioA.initial 0)).graph 0 -
          s1.learningRate * d := by
  have hwf := ScenarioA.wired_wellFormed _
    (ScenarioA.start_wired (1 / 100 : ℝ) (ScenarioA.initial 0))
  refine ⟨ScenarioA.graph_lawful, hwf, Nat.one_pos, ?_⟩
  refine C11_accumulator_is_gradient ScenarioA.graph ScenarioA.graph_lawful _ hwf 0 Nat.one_pos
    (fun j => (j : ℝ) + 1) ?_ ?_ ?_
  · intro j hj
    have hj3 : j < 3 := hj
    have hfun : (fun p => outputAt (SquareLoss ℝ) ScenarioA.graph
        (ScenarioA.start (1 / 100 : ℝ) (ScenarioA.initial 0)).inputs
        (ScenarioA.start (1 / 100 : ℝ) (ScenarioA.initial 0)).outputs
        (ScenarioA.graph.setInput
          (ScenarioA.start (1 / 100 : ℝ) (ScenarioA.initial 0)).graph 0 p) j) =
        fun p => p * ((j : ℝ) + 1) := by
      funext p
      exact ScenarioA.outputAt_setInput 0 (1 / 100) p j hj3
    rw [hfun]
    simpa using (hasDerivAt_id (ScenarioA.graph.getInput
      (ScenarioA.start (1 / 100 : ℝ) (ScenarioA.initial 0)).graph 0)).mul_const ((j : ℝ) + 1)
  · intro j hj
    have hj3 : j < 3 := hj
    rw [ScenarioA.outputAt_setInput 0 (1 / 100) _ j hj3, ScenarioA.outputAt_start 0 (1 / 100) j hj3]
    rfl
  · intro j hj seed
    exact ScenarioA.backProp_slot 0 (1 / 100) seed j hj

/-! ## The free function and the optimiser -/

/-- Two loops whose bodies correspond under `proj`, on states that keep `I`, correspond. -/
theorem forRange_sim {σ τ : Type} (proj : σ → τ) (I : σ → Prop) (b1 : Nat → σ → Option σ)
    (b2 : Nat → τ → Option τ)
    (hstep : ∀ k s, I s → b2 k (proj s) = (b1 k s).map proj)
    (hinv : ∀ k s t, I s → b1 k s = some t → I t) (n : Nat) (s : σ) (hs : I s) :
    forRange n b2 (proj s) = (forRange n b1 s).map proj ∧
      ∀ t, forRange n b1 s = some t → I t := by
  induction n with
  | zero =>
    refine ⟨rfl, ?_⟩
    intro t ht
    rw [forRange_zero] at ht
    cases ht
    exact hs
  | succ n ih =>
    obtain ⟨h1, h2⟩ := ih
    rw [forRange_succ, forRange_succ, h1]
    cases h : forRange n b1 s with
    | none => exact ⟨rfl, fun t ht => by simp at ht⟩
    | some u =>
      have hu := h2 u h
      refine ⟨?_, ?_⟩
      · simp only [Option.map_some', Option.some_bind]
        exact hstep n u hu
      · intro t ht
        rw [Option.some_bind] at ht
        exact hinv n u t hu ht

theorem forRange_const_succ {σ : Type} (f : σ → Option σ) (n : Nat) (s : σ) :
    forRange (n + 1) (fun _ => f) s = (f s).bind (forRange n (fun _ => f)) := by
  induction n with
  | zero =>
    rw [forRange_succ, forRange_zero, Option.some_bind]
    cases f s <;> rfl
  | succ n ih =>
    rw [forRange_succ, ih]
    cases h : f s with
    | none => rfl
    | some t => simp only [Option.some_bind, forRange_succ]

theorem addUpdate_sim (ops : Graph K G) (k : Nat) (s : BatchOptimizer K G) :
    BatchGD.addUpdate ops k s.toBatchGD =
      (BatchOptimizer.addDeriv ops k s).map BatchOptimizer.toBatchGD := by
  unfold BatchGD.addUpdate BatchOptimizer.addDeriv
  simp only [BatchOptimizer.toBatchGD]
  by_cases hk : k < ops.paramNodesSize s.graph
  · simp only [hk, if_true]
    cases s.paramDerivs[k]? <;> rfl
  · simp only [hk, if_false]
    rfl

theorem addDeriv_attached (ops : Graph K G) (inp : List (List K)) (out : List K) (p n k : Nat)
    (s t : BatchOptimizer K G) (hs : BatchOptimizer.Attached ops inp out p n s)
    (h : BatchOptimizer.addDeriv ops k s = some t) : BatchOptimizer.Attached ops inp out p n t := by
  unfold BatchOptimizer.addDeriv at h
  by_cases hk : k < ops.paramNodesSize s.graph
  · simp only [hk, if_true] at h
    cases hd : s.paramDerivs[k]? with
    | none => simp [hd] at h
    | some d =>
      simp only [hd, Option.some.injEq] at h
      subst h
      exact hs
  · simp [hk] at h

theorem updateParam_sim (ops : Graph K G) (k : Nat) (s : BatchOptimizer K G) :
    BatchGD.updateParam ops k s.toBatchGD =
      (GradientDescent.updateParam ops k s).map BatchOptimizer.toBatchGD := by
  unfold BatchGD.updateParam GradientDescent.updateParam
  simp only [BatchOptimizer.toBatchGD]
  by_cases hk : k < ops.paramNodesSize s.graph
  · simp only [hk, if_true]
    cases s.paramDerivs[k]? <;> rfl
  · simp only [hk, if_false]
    rfl

theorem updateParam_attached (ops : Graph K G) (hops : ops.Lawful) (inp : List (List K))
    (out : List K) (p n k : Nat) (s t : BatchOptimizer K G)
    (hs : BatchOptimizer.Attached ops inp out p n s)
    (h : GradientDescent.updateParam ops k s = some t) :
    BatchOptimizer.Attached ops inp out p n t := by
  unfold GradientDescent.updateParam at h
  by_cases hk : k < ops.paramNodesSize s.graph
  · simp only [hk, if_true] at h
    cases hd : s.paramDerivs[k]? with
    | none => simp [hd] at h
    | some d =>
      simp only [hd, Option.some.injEq] at h
      subst h
      obtain ⟨h1, h2, h3, h4, h5⟩ := hs
      exact ⟨h1, h2, h3, h4, by simp only [hops.size_setInput]; exact h5⟩
  · simp [hk] at h

theorem exampleStep_sim (L : LossT K) (ops : Graph K G) (hops : ops.Lawful)
    (inp : List (List K)) (out : List K) (p n j : Nat) (s : BatchOptimizer K G) (e : K)
    (hs : BatchOptimizer.Attached ops inp out p n s) :
    BatchGD.exampleStep L ops inp out p j (s.toBatchGD, e) =
        (BatchOptimizer.exampleStep L ops j (s, e)).map (fun r => (r.1.toBatchGD, r.2)) ∧
      ∀ t, BatchOptimizer.exampleStep L ops j (s, e) = some t →
        BatchOptimizer.Attached ops inp out p n t.1 := by
  obtain ⟨h1, h2, h3, h4, h5⟩ := hs
  subst h1 h2 h3 h4
  unfold BatchGD.exampleStep BatchOptimizer.exampleStep BatchOptimizer.forwardPass
  cases hx : s.inputs[j]? with
  | none => exact ⟨rfl, fun t ht => by simp at ht⟩
  | some x =>
    cases hy : s.outputs[j]? with
    | none => exact ⟨by simp [hy], fun t ht => by simp [hy] at ht⟩
    | some y =>
      have hs3 : BatchOptimizer.Attached ops s.inputs s.outputs s.nParams s.setSize
          { s with graph := (ops.backProp (ops.traverse (ops.setInputs s.graph x)) 0
            (L.derivative (ops.getOutput (ops.traverse (ops.setInputs s.graph x)) 0) y)) } :=
        ⟨rfl, rfl, rfl, rfl, by
          simp only [hops.size_backProp, hops.size_traverse, hops.size_setInputs]
          exact h5⟩
      have hsim := forRange_sim BatchOptimizer.toBatchGD
        (BatchOptimizer.Attached ops s.inputs s.outputs s.nParams s.setSize)
        (BatchOptimizer.addDeriv ops)
        (BatchGD.addUpdate ops) (fun k s _ => addUpdate_sim ops k s)
        (fun k u t hu ht => addDeriv_attached ops _ _ _ _ k u t hu ht) s.nParams _ hs3
      simp only [BatchOptimizer.toBatchGD, hy] at hsim ⊢
      rw [hsim.1]
      cases hf : forRange s.nParams (BatchOptimizer.addDeriv ops)
          { s with graph := (ops.backProp (ops.traverse (ops.setInputs s.graph x)) 0
            (L.derivative (ops.getOutput (ops.traverse (ops.setInputs s.graph x)) 0) y)) } with
      | none => exact ⟨rfl, fun t ht => by simp at ht⟩
      | some u =>
        refine ⟨rfl, ?_⟩
        intro t ht
        simp only [Option.some.injEq] at ht
        subst ht
        exact hsim.2 u hf

theorem iteration_sim (L : LossT K) (ops : Graph K G) (hops : ops.Lawful)
    (inp : List (List K)) (out : List K) (p n : Nat) (s : BatchOptimizer K G)
    (hs : BatchOptimizer.Attached ops inp out p n s) :
    BatchGD.iteration L ops inp out p n s.toBatchGD =
        (GradientDescent.runEpoch L ops s).map BatchOptimizer.toBatchGD ∧
      ∀ t, GradientDescent.runEpoch L ops s = some t →
        BatchOptimizer.Attached ops inp out p n t := by
  have hs0 := hs
  obtain ⟨h1, h2, h3, h4, h5⟩ := hs
  subst h1 h2 h3 h4
  unfold BatchGD.iteration GradientDescent.runEpoch BatchOptimizer.runEpoch
    GradientDescent.updateParams
  have hpu : s.toBatchGD.paramUpdates = s.paramDerivs := rfl
  rw [hpu]
  cases hm : memsetZero s.paramDerivs s.nParams with
  | none => exact ⟨rfl, fun t ht => by simp at ht⟩
  | some z =>
    have hsz : BatchOptimizer.Attached ops s.inputs s.outputs s.nParams s.setSize
        { s with paramDerivs := z } := hs0
    have hloop := forRange_sim
      (fun r : BatchOptimizer K G × K => (r.1.toBatchGD, r.2))
      (fun r => BatchOptimizer.Attached ops s.inputs s.outputs s.nParams s.setSize r.1)
      (BatchOptimizer.exampleStep L ops)
      (BatchGD.exampleStep L ops s.inputs s.outputs s.nParams)
      (fun j r hr => (exampleStep_sim L ops hops _ _ _ _ j r.1 r.2 hr).1)
      (fun j r t hr ht => (exampleStep_sim L ops hops _ _ _ _ j r.1 r.2 hr).2 t ht)
      s.setSize ({ s with paramDerivs := z }, 0) hsz
    simp only [BatchOptimizer.toBatchGD] at hloop ⊢
    rw [hloop.1]
    cases hf : forRange s.setSize (BatchOptimizer.exampleStep L ops)
        ({ s with paramDerivs := z }, 0) with
    | none => exact ⟨rfl, fun t ht => by simp at ht⟩
    | some r =>
      obtain ⟨s1, e⟩ := r
      have hr1 : BatchOptimizer.Attached ops s.inputs s.outputs s.nParams s.setSize s1 :=
        hloop.2 _ hf
      simp only [Option.map_some']
      by_cases hE : e > s1.lastOverallError
      · simp only [hE, if_true]
        have hs3 : BatchOptimizer.Attached ops s.inputs s.outputs s.nParams s.setSize
            { s1 with learningRate := s1.learningRate / 2, lastOverallError := e } := hr1
        have hup := forRange_sim BatchOptimizer.toBatchGD
          (BatchOptimizer.Attached ops s.inputs s.outputs s.nParams s.setSize)
          (GradientDescent.updateParam ops) (BatchGD.updateParam ops)
          (fun k u _ => updateParam_sim ops k u)
          (fun k u t hu ht => updateParam_attached ops hops _ _ _ _ k u t hu ht)
          s.nParams _ hs3
        simp only [BatchOptimizer.toBatchGD] at hup
        rw [hr1.2.2.2.2]
        exact ⟨hup.1, hup.2⟩
      · simp only [hE, if_false]
        have hs3 : BatchOptimizer.Attached ops s.inputs s.outputs s.nParams s.setSize
            { s1 with lastOverallError := e } := hr1
        have hup := forRange_sim BatchOptimizer.toBatchGD
          (BatchOptimizer.Attached ops s.inputs s.outputs s.nParams s.setSize)
          (GradientDescent.updateParam ops) (BatchGD.updateParam ops)
          (fun k u _ => updateParam_sim ops k u)
          (fun k u t hu ht => updateParam_attached ops hops _ _ _ _ k u t hu ht)
          s.nParams _ hs3
        simp only [BatchOptimizer.toBatchGD] at hup
        rw [hr1.2.2.2.2]
        exact ⟨hup.1, hup.2⟩

theorem run_sim (L : LossT K) (ops : Graph K G) (hops : ops.Lawful)
    (inp : List (List K)) (out : List K) (p n M : Nat) (s : BatchOptimizer K G)
    (hs : BatchOptimizer.Attached ops inp out p n s) :
    forRange M (fun _ => BatchGD.iteration L ops inp out p n) s.toBatchGD =
      (GradientDescent.runEpochs L ops M s).map BatchOptimizer.toBatchGD := by
  induction M generalizing s with
  | zero => rfl
  | succ M ih =>
    obtain ⟨h1, h2⟩ := iteration_sim L ops hops inp out p n s hs
    rw [forRange_const_succ, GradientDescent.runEpochs, h1]
    cases h : GradientDescent.runEpoch L ops s with
    | none => rfl
    | some t =>
      simp only [Option.map_some', Option.some_bind]
      exact ih t (h2 t h)

theorem initial_eq_toBatchGD (ops : Graph K G) (g : G) (inp : List (List K)) (out : List K)
    (n : Nat) :
    BatchGD.initial ops g =
      (BatchOptimizer.setTrainingSet
        (BatchOptimizer.setGraph ops (BatchOptimizer.fresh g) g) inp out n).toBatchGD := by
  simp only [BatchGD.initial, BatchOptimizer.toBatchGD, BatchOptimizer.setTrainingSet,
    BatchOptimizer.setGraph, BatchOptimizer.fresh, resize, List.take_nil, List.nil_append,
    List.length_nil, Nat.sub_zero, BatchGD.mk.injEq, true_and, and_true]
  norm_num

/-- C12: over a lawful graph, `batchGradientDescent<LossT>(graph, inputs, expected, M)`
leaves the graph (so every parameter) exactly as a new `GradientDescent<LossT>` optimiser
does after `setGraph`, `setTrainingSet(inputs, expected, N)` with `N` the length of
`expected`, and `runEpochs(M)`; both start from the rate `0.2` and `E_prev = 0`, and both
return when `inputs` holds `N` entries. -/
theorem C12_batchGradientDescent_refines (L : LossT K) (ops : Graph K G) (hops : ops.Lawful)
    (g : G) (inputs : List (List K)) (expected : List K) (M : Nat) :
    batchGradientDescent L ops g inputs expected M =
      (GradientDescent.runEpochs L ops M
        (BatchOptimizer.setTrainingSet
          (BatchOptimizer.setGraph ops (BatchOptimizer.fresh g) g)
          inputs expected expected.length)).map (fun s => s.graph) ∧
    (BatchGD.initial ops g).learningRate = 2 / 10 ∧
    (BatchOptimizer.fresh g : BatchOptimizer K G).learningRate = 2 / 10 ∧
    (BatchGD.initial ops g).lastOverallError = 0 ∧
    (BatchOptimizer.fresh g : BatchOptimizer K G).lastOverallError = 0 ∧
    (expected.length ≤ inputs.length →
      ∃ s, GradientDescent.runEpochs L ops M
          (BatchOptimizer.setTrainingSet
            (BatchOptimizer.setGraph ops (BatchOptimizer.fresh g) g)
            inputs expected expected.length) = some s ∧
        batchGradientDescent L ops g inputs expected M = some s.graph) := by
  have hatt : BatchOptimizer.Attached ops inputs expected (ops.paramNodesSize g) expected.length
      (BatchOptimizer.setTrainingSet
        (BatchOptimizer.setGraph ops (BatchOptimizer.fresh g) g)
        inputs expected expected.length) := ⟨rfl, rfl, rfl, rfl, rfl⟩
  have hmain : batchGradientDescent L ops g inputs expected M =
      (GradientDescent.runEpochs L ops M
        (BatchOptimizer.setTrainingSet
          (BatchOptimizer.setGraph ops (BatchOptimizer.fresh g) g)
          inputs expected expected.length)).map (fun s => s.graph) := by
    unfold batchGradientDescent
    simp only
    rw [initial_eq_toBatchGD ops g inputs expected expected.length,
      run_sim L ops hops inputs expected _ _ M _ hatt, Option.map_map]
    rfl
  refine ⟨hmain, by norm_num [BatchGD.initial], rfl, rfl, rfl, ?_⟩
  intro hlen
  have hwf : WellFormed ops
      (BatchOptimizer.setTrainingSet
        (BatchOptimizer.setGraph ops (BatchOptimizer.fresh g) g)
        inputs expected expected.length) := by
    refine ⟨rfl, ?_, hlen, le_refl _⟩
    simp [BatchOptimizer.setTrainingSet, BatchOptimizer.setGraph, BatchOptimizer.fresh, resize]
  have hrun := (runEpochs_eq L ops hops M _ hwf).1
  refine ⟨_, hrun, ?_⟩
  rw [hmain, hrun]
  rfl

/-- Witness of C12: the Scenario A graph (`w = 0`) and training set, seven iterations. -/
theorem C12_batchGradientDescent_refines_witness :
    (ScenarioA.graph : Graph ℚ (ScenarioA.State ℚ)).Lawful ∧
    (ScenarioA.outputs : List ℚ).length ≤ (ScenarioA.inputs : List (List ℚ)).length ∧
    ∃ s, GradientDescent.runEpochs (SquareLoss ℚ) ScenarioA.graph 7
        (BatchOptimizer.setTrainingSet
          (BatchOptimizer.setGraph ScenarioA.graph
            (BatchOptimizer.fresh (ScenarioA.initial 0)) (ScenarioA.initial 0))
          ScenarioA.inputs ScenarioA.outputs (ScenarioA.outputs : List ℚ).length) = some s ∧
      batchGradientDescent (SquareLoss ℚ) ScenarioA.graph (ScenarioA.initial 0)
        ScenarioA.inputs ScenarioA.outputs 7 = some s.graph :=
  ⟨ScenarioA.graph_lawful, by simp [ScenarioA.inputs, ScenarioA.outputs],
    (C12_batchGradientDescent_refines (SquareLoss ℚ) ScenarioA.graph ScenarioA.graph_lawful
      (ScenarioA.initial 0) ScenarioA.inputs ScenarioA.outputs 7).2.2.2.2.2
      (by simp [ScenarioA.inputs, ScenarioA.outputs])⟩

end Claims

end ToyML


